import Mathlib

/-!
# RaycastVolume (vlVolume/RaycastVolume.cpp)

A shallow embedding of `vl::RaycastVolume` and the properties of its mesh
mutators (`setBox`, `generateTextureCoordinates`), its constructor, and
its render hook (`bindActor`, `onActorRenderStarted`, `updateUniforms`).

Conventions of the embedding:

* `float` and `vl::Real` scalars are exact rationals (`ℚ`); `int` is `Int`.
  The conversions `Real -> float` and `int -> float` are therefore the
  identity / the canonical cast.
* C++ objects reached through pointers are passed and returned by value;
  a `void` method that mutates `*this` or `*actor` returns the new value.
* Object identity (pointer comparison) is modelled by an address of type
  `Ptr`.
-/

set_option linter.dupNamespace false
set_option linter.unusedVariables false

namespace vl

/-! ## Vectors and boxes -/

/-- Three-component vector: `vl::fvec3` / `vl::vec3` over exact rationals. -/
structure fvec3 where
  x : ℚ
  y : ℚ
  z : ℚ
  deriving DecidableEq, Repr

/-- Modelled from the spec: the default constructor of `fvec3`
(vlCore/Vector3.hpp is not part of the sources at hand), "default (zero)":
all components zero. -/
instance : Inhabited fvec3 := ⟨⟨0, 0, 0⟩⟩

/-- Three-component integer vector `vl::ivec3`. -/
structure ivec3 where
  x : Int
  y : Int
  z : Int
  deriving DecidableEq, Repr

/-- Axis-aligned bounding box `vl::AABB`, given by its two corners. -/
structure AABB where
  minCorner : fvec3
  maxCorner : fvec3
  deriving DecidableEq, Repr

/-! ## Mesh storage -/

/-- The `memcpy(dst, src, sizeof(src))` idiom on element arrays: the leading
`src.length` elements of `dst` are overwritten by `src`, the rest is kept. -/
def memcpy {α : Type} (dst src : List α) : List α :=
  src ++ dst.drop src.length

/-- The `Array::resize(n)` call on a fresh array: `n` default elements. -/
def resize {α : Type} [Inhabited α] (n : Nat) : List α :=
  List.replicate n default

/-- The box `vl::Geometry` owned by the volume: vertex array, texture
coordinate array of unit 0, the indices of its single `DrawElementsUInt`
(`PT_QUADS`) draw call, and the bounds-dirty flag. -/
structure Geometry where
  vertexArray : List fvec3
  texCoordArray : List fvec3
  indices : List Nat
  boundsDirty : Bool
  deriving DecidableEq, Repr

/-- State of a `vl::RaycastVolume`: the geometry `mGeometry` and the box
`mBox`.  The members `mVertCoord` and `mTexCoord` are references to the
arrays installed in `mGeometry`, so they are views of its fields. -/
structure RaycastVolume where
  mGeometry : Geometry
  mBox : AABB
  deriving DecidableEq, Repr

namespace RaycastVolume

/-- The member `mVertCoord`: the vertex array installed in `mGeometry`. -/
def mVertCoord (self : RaycastVolume) : List fvec3 :=
  self.mGeometry.vertexArray

/-- The member `mTexCoord`: the texture coordinate array of `mGeometry`. -/
def mTexCoord (self : RaycastVolume) : List fvec3 :=
  self.mGeometry.texCoordArray

/-- The index list of the draw call of `mGeometry`. -/
def indices (self : RaycastVolume) : List Nat :=
  self.mGeometry.indices

/-- The local table `box_verts` of `setBox`, built from the six corner
scalars read from the box. -/
def box_verts (box : AABB) : List fvec3 :=
  let x0 := box.minCorner.x
  let y0 := box.minCorner.y
  let z0 := box.minCorner.z
  let x1 := box.maxCorner.x
  let y1 := box.maxCorner.y
  let z1 := box.maxCorner.z
  [ ⟨x0, y0, z1⟩, ⟨x1, y0, z1⟩, ⟨x1, y1, z1⟩, ⟨x0, y1, z1⟩,
    ⟨x0, y0, z0⟩, ⟨x1, y0, z0⟩, ⟨x1, y1, z0⟩, ⟨x0, y1, z0⟩ ]

/-- Method `RaycastVolume::setBox`: stores the box, overwrites the vertex
array with `box_verts` and marks the geometry bounds dirty. -/
def setBox (self : RaycastVolume) (box : AABB) : RaycastVolume :=
  { mBox := box
    mGeometry :=
      { self.mGeometry with
        vertexArray := memcpy self.mGeometry.vertexArray (box_verts box)
        boundsDirty := true } }

/-- The diagnostic logged by `generateTextureCoordinates` on a bad size. -/
def sizeError : String :=
  "RaycastVolume::generateTextureCoordinates(): failed! The size passed does not represent a 3D image.\n"

/-- The local table `texc` of `generateTextureCoordinates`. -/
def inset_texc (size : ivec3) : List fvec3 :=
  let dx : ℚ := (1 / 2) / (size.x : ℚ)
  let dy : ℚ := (1 / 2) / (size.y : ℚ)
  let dz : ℚ := (1 / 2) / (size.z : ℚ)
  let x0 := 0 + dx
  let x1 := 1 - dx
  let y0 := 0 + dy
  let y1 := 1 - dy
  let z0 := 0 + dz
  let z1 := 1 - dz
  [ ⟨x0, y0, z1⟩, ⟨x1, y0, z1⟩, ⟨x1, y1, z1⟩, ⟨x0, y1, z1⟩,
    ⟨x0, y0, z0⟩, ⟨x1, y0, z0⟩, ⟨x1, y1, z0⟩, ⟨x0, y1, z0⟩ ]

/-- Method `RaycastVolume::generateTextureCoordinates`.  The result pairs the
new state with the messages passed to `Log::error` during the call. -/
def generateTextureCoordinates (self : RaycastVolume) (size : ivec3) :
    RaycastVolume × List String :=
  if size.x = 0 ∨ size.y = 0 ∨ size.z = 0 then
    (self, [sizeError])
  else
    ({ self with
        mGeometry :=
          { self.mGeometry with
            texCoordArray := memcpy self.mGeometry.texCoordArray (inset_texc size) } },
     [])

/-- The constant table `de_indices` of the constructor. -/
def de_indices : List Nat :=
  [0,1,2,3, 1,5,6,2, 5,4,7,6, 4,0,3,7, 3,2,6,7, 4,5,1,0]

/-- The constant table `texc` of the constructor. -/
def default_texc : List fvec3 :=
  [ ⟨0,0,0⟩, ⟨1,0,0⟩, ⟨1,1,0⟩, ⟨0,1,0⟩,
    ⟨0,0,1⟩, ⟨1,0,1⟩, ⟨1,1,1⟩, ⟨0,1,1⟩ ]

/-- Constructor `RaycastVolume::RaycastVolume()`: arrays of 8 vertices and 8
texture coordinates, 24 indices copied from `de_indices`, the default
texture coordinates, then `setBox` on the unit box.  The member `mBox` holds
the default (null) `AABB` until `setBox` overwrites it. -/
def RaycastVolume : RaycastVolume :=
  let mVertCoord : List fvec3 := resize 8
  let mTexCoord : List fvec3 := resize 8
  let de : List Nat := memcpy (resize (4 * 6)) de_indices
  let mTexCoord := memcpy mTexCoord default_texc
  let fresh : vl.RaycastVolume :=
    { mGeometry :=
        { vertexArray := mVertCoord
          texCoordArray := mTexCoord
          indices := de
          boundsDirty := true }
      mBox := ⟨⟨1, 1, 1⟩, ⟨-1, -1, -1⟩⟩ }
  setBox fresh ⟨⟨0, 0, 0⟩, ⟨1, 1, 1⟩⟩

/-- Shape invariant established by the constructor and kept by both mesh
mutators: 8 vertices, 8 texture coordinates, 24 indices. -/
def WellFormed (self : vl.RaycastVolume) : Prop :=
  self.mVertCoord.length = 8 ∧ self.mTexCoord.length = 8 ∧ self.indices.length = 24

end RaycastVolume

/-! ## Matrices and homogeneous vectors -/

/-- Four-component vector `vl::fvec4`. -/
structure fvec4 where
  x : ℚ
  y : ℚ
  z : ℚ
  w : ℚ
  deriving DecidableEq, Repr

/-- Accessor `Vector4::xyz()`: the first three components. -/
def fvec4.xyz (v : fvec4) : fvec3 :=
  ⟨v.x, v.y, v.z⟩

/-- Negation of a vector, `operator-` of `fvec3`. -/
def fvec3.neg (v : fvec3) : fvec3 :=
  ⟨-v.x, -v.y, -v.z⟩

/-- The 4x4 matrix `vl::fmat4` (`vl::mat4` alike); entry `m i j` is row `i`,
column `j`, the `e(i,j)` of the library. -/
abbrev fmat4 : Type := Matrix (Fin 4) (Fin 4) ℚ

namespace fmat4

/-- Modelled from the spec: `Matrix4::getInverse()` (vlCore/Matrix4.hpp is not
part of the sources at hand).  The spec only calls it "the inverse of the
actor's world transform": the adjugate scaled by the reciprocal of the
determinant, which is the inverse matrix whenever one exists. -/
def getInverse (m : fmat4) : fmat4 :=
  (m.det)⁻¹ • m.adjugate

/-- Modelled from the spec: `Matrix4::getTransposed()`, "the transpose". -/
def getTransposed (m : fmat4) : fmat4 :=
  m.transpose

/-- Modelled from the spec: `Matrix4::getT()`, "the translation component",
that is the xyz of the last column. -/
def getT (m : fmat4) : fvec3 :=
  ⟨m 0 3, m 1 3, m 2 3⟩

/-- Modelled from the spec: `Matrix4::getZ()`, "the Z basis vector", that is
the xyz of the third column. -/
def getZ (m : fmat4) : fvec3 :=
  ⟨m 0 2, m 1 2, m 2 2⟩

/-- Modelled from the spec: `operator*(fmat4, fvec3)`, a matrix applied to a
position: the vector is a column vector whose 4th component is taken as 1. -/
def mulVec3 (m : fmat4) (v : fvec3) : fvec3 :=
  ⟨v.x * m 0 0 + v.y * m 0 1 + v.z * m 0 2 + m 0 3,
   v.x * m 1 0 + v.y * m 1 1 + v.z * m 1 2 + m 1 3,
   v.x * m 2 0 + v.y * m 2 1 + v.z * m 2 2 + m 2 3⟩

/-- Modelled from the spec: `operator*(fmat4, fvec4)`, a matrix times a
homogeneous column vector. -/
def mulVec4 (m : fmat4) (v : fvec4) : fvec4 :=
  ⟨v.x * m 0 0 + v.y * m 0 1 + v.z * m 0 2 + v.w * m 0 3,
   v.x * m 1 0 + v.y * m 1 1 + v.z * m 1 2 + v.w * m 1 3,
   v.x * m 2 0 + v.y * m 2 1 + v.z * m 2 2 + v.w * m 2 3,
   v.x * m 3 0 + v.y * m 3 1 + v.z * m 3 2 + v.w * m 3 3⟩

end fmat4

/-! ## Collaborators of the render hook -/

/-- Address of an object, for comparisons by identity. -/
abbrev Ptr : Type := Nat

/-- A `vl::Transform`, read through `worldMatrix()`. -/
structure Transform where
  worldMatrix : fmat4

/-- A `vl::Light`: homogeneous position and optional followed transform
(`NULL` is `none`). -/
structure Light where
  position : fvec4
  followedTransform : Option Transform

/-- A `vl::Camera`, read through `inverseViewMatrix()`. -/
structure Camera where
  inverseViewMatrix : fmat4

/-- A `vl::GLSLProgram`, read through `getUniformLocation(name)`, which is
`-1` for a uniform the program does not declare. -/
structure GLSLProgram where
  getUniformLocation : String → Int

/-- A `vl::Shader`: its GLSL program (`NULL` is `none`) and the light bound
to each slot (`NULL` is `none`). -/
structure Shader where
  getGLSLProgram : Option GLSLProgram
  getLight : Nat → Option Light

/-- Value held by a `vl::Uniform` after `setUniform(count, fvec3*)` /
`setUniform(fvec3)` (`float3`) or `setUniform1i(count, int*)` (`int1`). -/
inductive UniformData where
  | float3 (v : List fvec3)
  | int1 (v : List Int)
  deriving DecidableEq, Repr

/-- A named `vl::Uniform`. -/
structure Uniform where
  name : String
  data : UniformData
  deriving DecidableEq, Repr

/-- Modelled from the spec: the call chain `gocUniform(name)->setUniform(d)`
on a uniform set (vlGraphics/UniformSet is not part of the sources at hand):
get-or-create by name, then overwrite the value.  The first uniform called
`name` is updated in place; when there is none a new one is appended. -/
def gocSetUniform : List Uniform → String → UniformData → List Uniform
  | [], name, d => [⟨name, d⟩]
  | u :: us, name, d =>
    if u.name = name then ⟨u.name, d⟩ :: us else u :: gocSetUniform us name d

/-- Modelled from the spec: `getUniform(name)` on a uniform set, the value of
the first uniform called `name`, if any. -/
def getUniform : List Uniform → String → Option UniformData
  | [], _ => none
  | u :: us, name => if u.name = name then some u.data else getUniform us name

/-- A `vl::Actor` as seen by the render hook: its transform (`NULL` is
`none`), its uniform store, its ordered list of event callbacks (by
address) and its level-of-detail slots. -/
structure Actor where
  transform : Option Transform
  uniforms : List Uniform
  actorEventCallbacks : List Ptr
  lod : Nat → Option Geometry

/-- The call chain `actor->gocUniform(name)->setUniform(d)`. -/
def Actor.gocSetUniform (actor : Actor) (name : String) (d : UniformData) : Actor :=
  { actor with uniforms := vl.gocSetUniform actor.uniforms name d }

namespace RaycastVolume

/-- Locals of the light block of `updateUniforms`: `light_enable[4]`,
`light_position[4]` and `has_lights`. -/
structure LightLocals where
  light_enable : List Int
  light_position : List fvec3
  has_lights : Bool
  deriving DecidableEq, Repr

/-- The world-space position of a light, lines 136-140: through the followed
transform when there is one, else through the inverse view matrix. -/
def lightWorldPosition (camera : Camera) (light : Light) : fvec3 :=
  match light.followedTransform with
  | some t => t.worldMatrix.mulVec3 light.position.xyz
  | none => (camera.inverseViewMatrix.mulVec4 light.position).xyz

/-- Body of the loop `for( int i=0; i<4; ++i )` of `updateUniforms`. -/
def lightLoopBody (actor : Actor) (camera : Camera) (shader : Shader) (inv_mat : fmat4)
    (st : LightLocals) (i : Nat) : LightLocals :=
  let light := shader.getLight i
  let st := { st with light_enable := st.light_enable.set i (if light.isSome then 1 else 0) }
  match light with
  | none => st
  | some l =>
    let p := lightWorldPosition camera l
    let p := if actor.transform.isSome then inv_mat.mulVec3 p else p
    { st with has_lights := true, light_position := st.light_position.set i p }

/-- The loop `for( int i=0; i<4; ++i )` of `updateUniforms`, run from the
initial locals `{ 0,0,0,0 }`, four default vectors and `false`. -/
def lightLoop (actor : Actor) (camera : Camera) (shader : Shader) (inv_mat : fmat4) :
    LightLocals :=
  (List.range 4).foldl (lightLoopBody actor camera shader inv_mat)
    { light_enable := [0, 0, 0, 0]
      light_position := [default, default, default, default]
      has_lights := false }

/-- The local `inv_mat` of `updateUniforms`: the inverse world matrix of the
actor transform, and the default-constructed (identity) matrix without one. -/
def invMat (actor : Actor) : fmat4 :=
  match actor.transform with
  | some t => t.worldMatrix.getInverse
  | none => 1

/-- Lines 120-150 of `updateUniforms`: the light uniforms. -/
def updateLights (glsl : GLSLProgram) (actor : Actor) (camera : Camera) (shader : Shader) :
    Actor :=
  if glsl.getUniformLocation "light_position" ≠ -1 ∧
      glsl.getUniformLocation "light_enable" ≠ -1 then
    let st := lightLoop actor camera shader (invMat actor)
    let actor := actor.gocSetUniform "light_position" (.float3 st.light_position)
    actor.gocSetUniform "light_enable" (.int1 st.light_enable)
  else
    actor

/-- The value computed for `eye_position`, lines 157-160. -/
def eyePosition (actor : Actor) (camera : Camera) : fvec3 :=
  let eye := camera.inverseViewMatrix.getT
  if actor.transform.isSome then (invMat actor).mulVec3 eye else eye

/-- Lines 152-162 of `updateUniforms`: the uniform `eye_position`. -/
def updateEyePosition (glsl : GLSLProgram) (actor : Actor) (camera : Camera) : Actor :=
  if glsl.getUniformLocation "eye_position" ≠ -1 then
    actor.gocSetUniform "eye_position" (.float3 [eyePosition actor camera])
  else
    actor

/-- The value computed for `eye_look`, lines 169-175. -/
def eyeLook (actor : Actor) (camera : Camera) : fvec3 :=
  let look := camera.inverseViewMatrix.getZ.neg
  match actor.transform with
  | some t => t.worldMatrix.getInverse.getTransposed.mulVec3 look
  | none => look

/-- Lines 164-177 of `updateUniforms`: the uniform `eye_look`. -/
def updateEyeLook (glsl : GLSLProgram) (actor : Actor) (camera : Camera) : Actor :=
  if glsl.getUniformLocation "eye_look" ≠ -1 then
    actor.gocSetUniform "eye_look" (.float3 [eyeLook actor camera])
  else
    actor

/-- Method `RaycastVolume::updateUniforms`.  The result is `none` when the
assertion `VL_CHECK( glsl )` fails, that is when the shader has no GLSL
program; otherwise it is the actor after the three guarded blocks. -/
def updateUniforms (actor : Actor) (clock : ℚ) (camera : Camera) (rend : Geometry)
    (shader : Shader) : Option Actor :=
  match shader.getGLSLProgram with
  | none => none
  | some glsl =>
    let actor := updateLights glsl actor camera shader
    let actor := updateEyePosition glsl actor camera
    let actor := updateEyeLook glsl actor camera
    some actor

/-- Method `RaycastVolume::bindActor`; `thisPtr` is the address `this` of the
volume.  `erase` removes the first occurrence of the address, `push_back`
appends it, `setLod( 0, ... )` assigns slot 0. -/
def bindActor (self : vl.RaycastVolume) (thisPtr : Ptr) (actor : Actor) : Actor :=
  let actor := { actor with actorEventCallbacks := actor.actorEventCallbacks.erase thisPtr }
  let actor := { actor with actorEventCallbacks := actor.actorEventCallbacks ++ [thisPtr] }
  { actor with lod := Function.update actor.lod 0 (some self.mGeometry) }

/-- Method `RaycastVolume::onActorRenderStarted`.  The result is `none` only
if the assertion of `updateUniforms` fails. -/
def onActorRenderStarted (actor : Actor) (clock : ℚ) (camera : Camera) (rend : Geometry)
    (shader : Shader) (pass : Int) : Option Actor :=
  if pass > 0 then
    some actor
  else if shader.getGLSLProgram.isSome then
    updateUniforms actor clock camera rend shader
  else
    some actor

end RaycastVolume

/-! ## A sample scene

Concrete collaborators on which the statements below are instantiated. -/

/-- A GLSL program declaring exactly the uniforms `names`; the location of a
declared uniform is its position in the list. -/
def programDeclaring (names : List String) : GLSLProgram :=
  ⟨fun n => if n ∈ names then (names.indexOf n : Int) else -1⟩

/-- A light at (1,2,3) that follows no transform. -/
def sampleLight : Light :=
  ⟨⟨1, 2, 3, 1⟩, none⟩

/-- Light slots of the sample shaders: one light, in slot 1. -/
def sampleLights : Nat → Option Light :=
  fun i => if i = 1 then some sampleLight else none

/-- A shader whose program declares exactly `names`, with `sampleLights`. -/
def sampleShader (names : List String) : Shader :=
  ⟨some (programDeclaring names), sampleLights⟩

/-- A shader without GLSL program. -/
def fixedPipelineShader : Shader :=
  ⟨none, sampleLights⟩

/-- A camera at (5,6,7) looking down the negative z axis. -/
def sampleCamera : Camera :=
  ⟨!![1, 0, 0, 5; 0, 1, 0, 6; 0, 0, 1, 7; 0, 0, 0, 1]⟩

/-- An actor without transform, holding one foreign uniform and three
callbacks, the one at address 7 in the middle. -/
def sampleActor : Actor :=
  { transform := none
    uniforms := [⟨"val_threshold", .float3 [⟨1, 0, 0⟩]⟩]
    actorEventCallbacks := [3, 7, 5]
    lod := fun _ => none }

/-- An actor without transform, uniforms, callbacks or renderables. -/
def bareActor : Actor :=
  { transform := none
    uniforms := []
    actorEventCallbacks := []
    lod := fun _ => none }

/-- An actor whose transform has the identity world matrix. -/
def identityActor : Actor :=
  { transform := some ⟨1⟩
    uniforms := []
    actorEventCallbacks := []
    lod := fun _ => none }

/-- A world matrix scaling by (2,4,8) and translating by (1,2,3). -/
def scaledWorldMatrix : fmat4 :=
  !![2, 0, 0, 1; 0, 4, 0, 2; 0, 0, 8, 3; 0, 0, 0, 1]

/-- The inverse of `scaledWorldMatrix`, written out. -/
def scaledWorldMatrixInverse : fmat4 :=
  !![1/2, 0, 0, -1/2; 0, 1/4, 0, -1/2; 0, 0, 1/8, -3/8; 0, 0, 0, 1]

/-- An actor placed by `scaledWorldMatrix`. -/
def scaledActor : Actor :=
  { transform := some ⟨scaledWorldMatrix⟩
    uniforms := []
    actorEventCallbacks := []
    lod := fun _ => none }

/-- A light at (1,1,1) following the transform `scaledWorldMatrix`. -/
def followingLight : Light :=
  ⟨⟨1, 1, 1, 1⟩, some ⟨scaledWorldMatrix⟩⟩

/-- Light slots with the sample light in slot 0 and the following light in
slot 2. -/
def followingLights : Nat → Option Light :=
  fun i => if i = 0 then some sampleLight else if i = 2 then some followingLight else none

/-! ## Vocabulary of the mesh properties

Notions that the source does not compute but that the properties of the
box mesh are stated in. -/

/-- Difference of two vectors. -/
def fvec3.sub (a b : fvec3) : fvec3 :=
  ⟨a.x - b.x, a.y - b.y, a.z - b.z⟩

/-- Cross product of two vectors. -/
def fvec3.cross (a b : fvec3) : fvec3 :=
  ⟨a.y * b.z - a.z * b.y, a.z * b.x - a.x * b.z, a.x * b.y - a.y * b.x⟩

/-- Dot product of two vectors. -/
def fvec3.dot (a b : fvec3) : ℚ :=
  a.x * b.x + a.y * b.y + a.z * b.z

namespace RaycastVolume

/-- The primitives of a `PT_QUADS` draw call: the consecutive groups of 4
indices. -/
def quads : List Nat → List (List Nat)
  | a :: b :: c :: d :: rest => [a, b, c, d] :: quads rest
  | _ => []

/-- The vertex an index refers to. -/
def vertexAt (verts : List fvec3) (k : Nat) : fvec3 :=
  verts.getD k default

/-- The cross product of the first two consecutive edges of a quad
`a, b, c, d`: `(b - a) x (c - b)`. -/
def quadNormal (verts : List fvec3) (q : List Nat) : fvec3 :=
  ((vertexAt verts (q.getD 1 0)).sub (vertexAt verts (q.getD 0 0))).cross
    ((vertexAt verts (q.getD 2 0)).sub (vertexAt verts (q.getD 1 0)))

/-- A normal `n` at the point `p` points out of the solid spanned by `verts`:
no vertex lies on the side `n` points to, and some vertex lies strictly on
the other side. -/
def PointsOutward (verts : List fvec3) (p n : fvec3) : Prop :=
  (∀ w ∈ verts, n.dot (w.sub p) ≤ 0) ∧ ∃ w ∈ verts, n.dot (w.sub p) < 0

/-- The half-texel inset of a unit-cube coordinate `c` (0 or 1) by `d`: the
coordinate moved by `d` towards the inside of the unit interval, `d` next
to 0 and `1 - d` next to 1. -/
def halfTexelInset (d c : ℚ) : ℚ :=
  c + d * (1 - 2 * c)

/-- The states a volume can be in: the constructed one and every state
reached from it by `setBox` and `generateTextureCoordinates`. -/
inductive Reachable : vl.RaycastVolume → Prop where
  | constructed : Reachable RaycastVolume.RaycastVolume
  | setBox (s : vl.RaycastVolume) (box : AABB) : Reachable s → Reachable (s.setBox box)
  | generateTextureCoordinates (s : vl.RaycastVolume) (size : ivec3) :
      Reachable s → Reachable (s.generateTextureCoordinates size).1

end RaycastVolume

/-! ## Properties of the mesh mutators -/

namespace RaycastVolume

/-- Overwriting an array of exactly `src.length` elements replaces it. -/
theorem memcpy_of_length_eq {α : Type} (dst src : List α) (h : dst.length = src.length) :
    memcpy dst src = src := by
  unfold memcpy
  rw [List.drop_of_length_le (le_of_eq h), List.append_nil]

/-- The table `box_verts` has 8 entries. -/
theorem box_verts_length (box : AABB) : (box_verts box).length = 8 := rfl

/-- The table `texc` of `generateTextureCoordinates` has 8 entries. -/
theorem inset_texc_length (size : ivec3) : (inset_texc size).length = 8 := rfl

/-- The constructor establishes the shape invariant. -/
theorem wellFormed_constructor : WellFormed RaycastVolume.RaycastVolume :=
  ⟨rfl, rfl, rfl⟩

/-- The method `setBox` keeps the shape invariant. -/
theorem wellFormed_setBox (self : vl.RaycastVolume) (box : AABB) (h : WellFormed self) :
    WellFormed (self.setBox box) := by
  obtain ⟨hv, ht, hi⟩ := h
  refine ⟨?_, ht, hi⟩
  show (memcpy self.mGeometry.vertexArray (box_verts box)).length = 8
  rw [memcpy_of_length_eq _ _ (by rw [box_verts_length]; exact hv), box_verts_length]

/-- The method `generateTextureCoordinates` keeps the shape invariant. -/
theorem wellFormed_generateTextureCoordinates (self : vl.RaycastVolume) (size : ivec3)
    (h : WellFormed self) : WellFormed (self.generateTextureCoordinates size).1 := by
  obtain ⟨hv, ht, hi⟩ := h
  unfold generateTextureCoordinates
  split
  · exact ⟨hv, ht, hi⟩
  · refine ⟨hv, ?_, hi⟩
    show (memcpy self.mGeometry.texCoordArray (inset_texc size)).length = 8
    rw [memcpy_of_length_eq _ _ (by rw [inset_texc_length]; exact ht), inset_texc_length]

/-- C1: for every box `B` (in particular every box with min <= max) and every
volume holding its 8 vertices, after `setBox B` the vertex positions are, in
order 0..7, `(x0,y0,z1) (x1,y0,z1) (x1,y1,z1) (x0,y1,z1) (x0,y0,z0) (x1,y0,z0)
(x1,y1,z0) (x0,y1,z0)`, so corners 0-3 lie on the face z = max and corners 4-7
on the face z = min in matching order; the stored box is `B` and the geometry
bounds are marked dirty. -/
theorem setBox_vertices (self : vl.RaycastVolume) (B : AABB)
    (hmin : B.minCorner.x ≤ B.maxCorner.x ∧ B.minCorner.y ≤ B.maxCorner.y ∧
      B.minCorner.z ≤ B.maxCorner.z)
    (hlen : self.mVertCoord.length = 8) :
    (self.setBox B).mVertCoord =
        [ ⟨B.minCorner.x, B.minCorner.y, B.maxCorner.z⟩,
          ⟨B.maxCorner.x, B.minCorner.y, B.maxCorner.z⟩,
          ⟨B.maxCorner.x, B.maxCorner.y, B.maxCorner.z⟩,
          ⟨B.minCorner.x, B.maxCorner.y, B.maxCorner.z⟩,
          ⟨B.minCorner.x, B.minCorner.y, B.minCorner.z⟩,
          ⟨B.maxCorner.x, B.minCorner.y, B.minCorner.z⟩,
          ⟨B.maxCorner.x, B.maxCorner.y, B.minCorner.z⟩,
          ⟨B.minCorner.x, B.maxCorner.y, B.minCorner.z⟩ ] ∧
      (self.setBox B).mBox = B ∧
      (self.setBox B).mGeometry.boundsDirty = true := by
  refine ⟨?_, rfl, rfl⟩
  show memcpy self.mGeometry.vertexArray (box_verts B) = _
  rw [memcpy_of_length_eq _ _ (by rw [box_verts_length]; exact hlen)]
  rfl

/-- C1 at the freshly constructed volume and the box [-1,-2,-3]-[4,5,6]. -/
theorem setBox_vertices_witness :
    (RaycastVolume.setBox RaycastVolume.RaycastVolume ⟨⟨-1, -2, -3⟩, ⟨4, 5, 6⟩⟩).mVertCoord =
        [ ⟨-1, -2, 6⟩, ⟨4, -2, 6⟩, ⟨4, 5, 6⟩, ⟨-1, 5, 6⟩,
          ⟨-1, -2, -3⟩, ⟨4, -2, -3⟩, ⟨4, 5, -3⟩, ⟨-1, 5, -3⟩ ] ∧
      (RaycastVolume.setBox RaycastVolume.RaycastVolume ⟨⟨-1, -2, -3⟩, ⟨4, 5, 6⟩⟩).mBox =
        ⟨⟨-1, -2, -3⟩, ⟨4, 5, 6⟩⟩ ∧
      (RaycastVolume.setBox RaycastVolume.RaycastVolume
        ⟨⟨-1, -2, -3⟩, ⟨4, 5, 6⟩⟩).mGeometry.boundsDirty = true :=
  setBox_vertices RaycastVolume.RaycastVolume ⟨⟨-1, -2, -3⟩, ⟨4, 5, 6⟩⟩
    (by norm_num) (by rfl)

/-- C2: for every resolution with a zero component and every prior state,
`generateTextureCoordinates` logs its diagnostic and returns the volume
exactly as it was: texture coordinates and all other fields are untouched. -/
theorem generateTextureCoordinates_zero (self : vl.RaycastVolume) (size : ivec3)
    (hzero : size.x = 0 ∨ size.y = 0 ∨ size.z = 0) :
    (self.generateTextureCoordinates size).1 = self ∧
      (self.generateTextureCoordinates size).2 = [sizeError] := by
  unfold generateTextureCoordinates
  rw [if_pos hzero]
  exact ⟨rfl, rfl⟩

/-- C2 at the freshly constructed volume and the resolution (4, 0, 7). -/
theorem generateTextureCoordinates_zero_witness :
    (RaycastVolume.generateTextureCoordinates RaycastVolume.RaycastVolume ⟨4, 0, 7⟩).1 =
        RaycastVolume.RaycastVolume ∧
      (RaycastVolume.generateTextureCoordinates RaycastVolume.RaycastVolume ⟨4, 0, 7⟩).2 =
        [sizeError] :=
  generateTextureCoordinates_zero RaycastVolume.RaycastVolume ⟨4, 0, 7⟩ (Or.inr (Or.inl rfl))

/-- The half-texel offset of a positive resolution lies strictly between 0
and 1. -/
theorem half_texel_bounds (r : Int) (h : 0 < r) :
    (0 : ℚ) < (1 / 2) / (r : ℚ) ∧ (1 / 2) / (r : ℚ) < 1 := by
  have hr : (1 : ℚ) ≤ (r : ℚ) := by exact_mod_cast h
  have hpos : (0 : ℚ) < (r : ℚ) := by linarith
  constructor
  · positivity
  · rw [div_lt_one hpos]
    linarith

/-- With all components positive the call takes the success path: the
texture coordinate array is overwritten by the table `texc`, nothing is
logged. -/
theorem generateTextureCoordinates_pos (self : vl.RaycastVolume) (size : ivec3)
    (hx : size.x ≠ 0) (hy : size.y ≠ 0) (hz : size.z ≠ 0) :
    self.generateTextureCoordinates size =
      ({ self with
          mGeometry :=
            { self.mGeometry with
              texCoordArray := memcpy self.mGeometry.texCoordArray (inset_texc size) } },
       []) := by
  unfold generateTextureCoordinates
  rw [if_neg]
  rintro (h | h | h)
  · exact hx h
  · exact hy h
  · exact hz h

/-- C3: for every resolution with all components strictly positive (and a
volume holding its 8 texture coordinates), `generateTextureCoordinates` logs
nothing and leaves 8 texture coordinates; every component of every coordinate
lies strictly between 0 and 1 and equals `0.5/r_axis` or `1 - 0.5/r_axis`,
the arithmetic being exact over the rationals. -/
theorem generateTextureCoordinates_inset (self : vl.RaycastVolume) (size : ivec3)
    (hx : 0 < size.x) (hy : 0 < size.y) (hz : 0 < size.z)
    (hlen : self.mTexCoord.length = 8) :
    (self.generateTextureCoordinates size).2 = [] ∧
      (self.generateTextureCoordinates size).1.mTexCoord.length = 8 ∧
      ∀ c ∈ (self.generateTextureCoordinates size).1.mTexCoord,
        (0 < c.x ∧ c.x < 1 ∧
          (c.x = (1 / 2) / (size.x : ℚ) ∨ c.x = 1 - (1 / 2) / (size.x : ℚ))) ∧
        (0 < c.y ∧ c.y < 1 ∧
          (c.y = (1 / 2) / (size.y : ℚ) ∨ c.y = 1 - (1 / 2) / (size.y : ℚ))) ∧
        (0 < c.z ∧ c.z < 1 ∧
          (c.z = (1 / 2) / (size.z : ℚ) ∨ c.z = 1 - (1 / 2) / (size.z : ℚ))) := by
  rw [generateTextureCoordinates_pos self size (ne_of_gt hx) (ne_of_gt hy) (ne_of_gt hz)]
  have hcopy : memcpy self.mGeometry.texCoordArray (inset_texc size) = inset_texc size :=
    memcpy_of_length_eq _ _ (by rw [inset_texc_length]; exact hlen)
  obtain ⟨hx0, hx1⟩ := half_texel_bounds size.x hx
  obtain ⟨hy0, hy1⟩ := half_texel_bounds size.y hy
  obtain ⟨hz0, hz1⟩ := half_texel_bounds size.z hz
  refine ⟨rfl, ?_, ?_⟩
  · show (memcpy self.mGeometry.texCoordArray (inset_texc size)).length = 8
    rw [hcopy, inset_texc_length]
  · intro c hc
    change c ∈ memcpy self.mGeometry.texCoordArray (inset_texc size) at hc
    rw [hcopy] at hc
    simp only [inset_texc, List.mem_cons, List.mem_singleton, List.not_mem_nil, or_false] at hc
    have lo : ∀ d : ℚ, 0 < d → d < 1 → 0 < 0 + d ∧ 0 + d < 1 := by
      intro d h0 h1
      constructor <;> linarith
    have hi : ∀ d : ℚ, 0 < d → d < 1 → 0 < 1 - d ∧ 1 - d < 1 := by
      intro d h0 h1
      constructor <;> linarith
    rcases hc with rfl | rfl | rfl | rfl | rfl | rfl | rfl | rfl
    · exact ⟨⟨(lo _ hx0 hx1).1, (lo _ hx0 hx1).2, Or.inl (zero_add _)⟩,
        ⟨(lo _ hy0 hy1).1, (lo _ hy0 hy1).2, Or.inl (zero_add _)⟩,
        ⟨(hi _ hz0 hz1).1, (hi _ hz0 hz1).2, Or.inr rfl⟩⟩
    · exact ⟨⟨(hi _ hx0 hx1).1, (hi _ hx0 hx1).2, Or.inr rfl⟩,
        ⟨(lo _ hy0 hy1).1, (lo _ hy0 hy1).2, Or.inl (zero_add _)⟩,
        ⟨(hi _ hz0 hz1).1, (hi _ hz0 hz1).2, Or.inr rfl⟩⟩
    · exact ⟨⟨(hi _ hx0 hx1).1, (hi _ hx0 hx1).2, Or.inr rfl⟩,
        ⟨(hi _ hy0 hy1).1, (hi _ hy0 hy1).2, Or.inr rfl⟩,
        ⟨(hi _ hz0 hz1).1, (hi _ hz0 hz1).2, Or.inr rfl⟩⟩
    · exact ⟨⟨(lo _ hx0 hx1).1, (lo _ hx0 hx1).2, Or.inl (zero_add _)⟩,
        ⟨(hi _ hy0 hy1).1, (hi _ hy0 hy1).2, Or.inr rfl⟩,
        ⟨(hi _ hz0 hz1).1, (hi _ hz0 hz1).2, Or.inr rfl⟩⟩
    · exact ⟨⟨(lo _ hx0 hx1).1, (lo _ hx0 hx1).2, Or.inl (zero_add _)⟩,
        ⟨(lo _ hy0 hy1).1, (lo _ hy0 hy1).2, Or.inl (zero_add _)⟩,
        ⟨(lo _ hz0 hz1).1, (lo _ hz0 hz1).2, Or.inl (zero_add _)⟩⟩
    · exact ⟨⟨(hi _ hx0 hx1).1, (hi _ hx0 hx1).2, Or.inr rfl⟩,
        ⟨(lo _ hy0 hy1).1, (lo _ hy0 hy1).2, Or.inl (zero_add _)⟩,
        ⟨(lo _ hz0 hz1).1, (lo _ hz0 hz1).2, Or.inl (zero_add _)⟩⟩
    · exact ⟨⟨(hi _ hx0 hx1).1, (hi _ hx0 hx1).2, Or.inr rfl⟩,
        ⟨(hi _ hy0 hy1).1, (hi _ hy0 hy1).2, Or.inr rfl⟩,
        ⟨(lo _ hz0 hz1).1, (lo _ hz0 hz1).2, Or.inl (zero_add _)⟩⟩
    · exact ⟨⟨(lo _ hx0 hx1).1, (lo _ hx0 hx1).2, Or.inl (zero_add _)⟩,
        ⟨(hi _ hy0 hy1).1, (hi _ hy0 hy1).2, Or.inr rfl⟩,
        ⟨(lo _ hz0 hz1).1, (lo _ hz0 hz1).2, Or.inl (zero_add _)⟩⟩

/-- C3 at the freshly constructed volume and the resolution (1, 2, 256). -/
theorem generateTextureCoordinates_inset_witness :
    (RaycastVolume.generateTextureCoordinates RaycastVolume.RaycastVolume ⟨1, 2, 256⟩).2 = [] ∧
      (RaycastVolume.generateTextureCoordinates RaycastVolume.RaycastVolume
        ⟨1, 2, 256⟩).1.mTexCoord.length = 8 ∧
      ∀ c ∈ (RaycastVolume.generateTextureCoordinates RaycastVolume.RaycastVolume
          ⟨1, 2, 256⟩).1.mTexCoord,
        (0 < c.x ∧ c.x < 1 ∧
          (c.x = (1 / 2) / (((1 : Int)) : ℚ) ∨ c.x = 1 - (1 / 2) / (((1 : Int)) : ℚ))) ∧
        (0 < c.y ∧ c.y < 1 ∧
          (c.y = (1 / 2) / (((2 : Int)) : ℚ) ∨ c.y = 1 - (1 / 2) / (((2 : Int)) : ℚ))) ∧
        (0 < c.z ∧ c.z < 1 ∧
          (c.z = (1 / 2) / (((256 : Int)) : ℚ) ∨
            c.z = 1 - (1 / 2) / (((256 : Int)) : ℚ))) :=
  generateTextureCoordinates_inset RaycastVolume.RaycastVolume ⟨1, 2, 256⟩
    (by decide) (by decide) (by decide) (by rfl)

/-- C4: the default-constructed volume has the box [0,0,0]-[1,1,1], the 8
corners of that box as vertex positions in the `setBox` order, the 24-entry
index table, and the raw unit-cube corners as texture coordinates. -/
theorem constructor_state :
    RaycastVolume.RaycastVolume.mBox = ⟨⟨0, 0, 0⟩, ⟨1, 1, 1⟩⟩ ∧
      RaycastVolume.RaycastVolume.mVertCoord =
        [ ⟨0,0,1⟩, ⟨1,0,1⟩, ⟨1,1,1⟩, ⟨0,1,1⟩, ⟨0,0,0⟩, ⟨1,0,0⟩, ⟨1,1,0⟩, ⟨0,1,0⟩ ] ∧
      RaycastVolume.RaycastVolume.mVertCoord =
        box_verts ⟨⟨0, 0, 0⟩, ⟨1, 1, 1⟩⟩ ∧
      RaycastVolume.RaycastVolume.indices.length = 24 ∧
      RaycastVolume.RaycastVolume.indices =
        [0,1,2,3, 1,5,6,2, 5,4,7,6, 4,0,3,7, 3,2,6,7, 4,5,1,0] ∧
      RaycastVolume.RaycastVolume.mTexCoord =
        [ ⟨0,0,0⟩, ⟨1,0,0⟩, ⟨1,1,0⟩, ⟨0,1,0⟩, ⟨0,0,1⟩, ⟨1,0,1⟩, ⟨1,1,1⟩, ⟨0,1,1⟩ ] :=
  ⟨rfl, rfl, rfl, rfl, rfl, rfl⟩

end RaycastVolume

/-! ## Properties of the render hook -/

/-- Reading a uniform after `gocUniform(name)->setUniform(d)`: the written
name yields `d`, any other name yields what it did before. -/
theorem getUniform_gocSetUniform (us : List Uniform) (name : String) (d : UniformData)
    (m : String) :
    getUniform (gocSetUniform us name d) m = if m = name then some d else getUniform us m := by
  induction us with
  | nil =>
    by_cases h : m = name
    · simp [gocSetUniform, getUniform, h]
    · have h2 : ¬ name = m := fun e => h e.symm
      simp [gocSetUniform, getUniform, h, h2]
  | cons u us ih =>
    by_cases hu : u.name = name
    · by_cases h : m = name
      · simp [gocSetUniform, getUniform, hu, h]
      · have h2 : ¬ name = m := fun e => h e.symm
        simp [gocSetUniform, getUniform, hu, h, h2]
    · by_cases hm : u.name = m
      · have h : ¬ m = name := fun e => hu (hm.trans e)
        simp [gocSetUniform, getUniform, hu, hm, h]
      · simp [gocSetUniform, getUniform, hu, hm, ih]

/-- Writing the uniform `name` leaves the uniforms of all other names, in
their order, as they were: a selection by name that excludes `name` is
unchanged. -/
theorem filter_gocSetUniform (q : String → Bool) (us : List Uniform) (name : String)
    (d : UniformData) (hq : q name = false) :
    (gocSetUniform us name d).filter (fun u => q u.name) = us.filter (fun u => q u.name) := by
  induction us with
  | nil => simp [gocSetUniform, hq]
  | cons u us ih =>
    by_cases hu : u.name = name
    · have hqu : q u.name = false := by rw [hu]; exact hq
      simp [gocSetUniform, hu, hq]
    · simp [gocSetUniform, hu, List.filter_cons, ih]

namespace RaycastVolume

/-- Entry `i` of a 4-element array given slot by slot. -/
theorem four_getElem? {α : Type} (b : Nat → α) (i : Nat) (hi : i < 4) :
    [b 0, b 1, b 2, b 3][i]? = some (b i) := by
  have hi4 : i = 0 ∨ i = 1 ∨ i = 2 ∨ i = 3 := by omega
  rcases hi4 with rfl | rfl | rfl | rfl <;> rfl

/-- The `light_enable` array after the loop: 1 for an occupied slot, 0 for
an empty one. -/
theorem lightLoop_light_enable (actor : Actor) (camera : Camera) (shader : Shader)
    (inv_mat : fmat4) :
    (lightLoop actor camera shader inv_mat).light_enable =
      [ if (shader.getLight 0).isSome then 1 else 0,
        if (shader.getLight 1).isSome then 1 else 0,
        if (shader.getLight 2).isSome then 1 else 0,
        if (shader.getLight 3).isSome then 1 else 0 ] := by
  cases h0 : shader.getLight 0 <;> cases h1 : shader.getLight 1 <;>
    cases h2 : shader.getLight 2 <;> cases h3 : shader.getLight 3 <;>
    simp [lightLoop, lightLoopBody, List.range, List.range.loop, h0, h1, h2, h3]

/-- The `light_position` array after the loop has 4 entries. -/
theorem lightLoop_light_position_length (actor : Actor) (camera : Camera) (shader : Shader)
    (inv_mat : fmat4) :
    (lightLoop actor camera shader inv_mat).light_position.length = 4 := by
  cases h0 : shader.getLight 0 <;> cases h1 : shader.getLight 1 <;>
    cases h2 : shader.getLight 2 <;> cases h3 : shader.getLight 3 <;>
    simp [lightLoop, lightLoopBody, List.range, List.range.loop, h0, h1, h2, h3]

/-- The `light_position` entry of an empty slot is the default vector. -/
theorem lightLoop_light_position_empty (actor : Actor) (camera : Camera) (shader : Shader)
    (inv_mat : fmat4) (i : Nat) (hi : i < 4) (hnone : shader.getLight i = none) :
    (lightLoop actor camera shader inv_mat).light_position[i]? = some ⟨0, 0, 0⟩ := by
  have hi4 : i = 0 ∨ i = 1 ∨ i = 2 ∨ i = 3 := by omega
  rcases hi4 with rfl | rfl | rfl | rfl <;>
    cases h0 : shader.getLight 0 <;> cases h1 : shader.getLight 1 <;>
    cases h2 : shader.getLight 2 <;> cases h3 : shader.getLight 3 <;>
    simp_all [lightLoop, lightLoopBody, List.range, List.range.loop, default]

/-- The light block does not touch the actor transform. -/
theorem updateLights_transform (glsl : GLSLProgram) (actor : Actor) (camera : Camera)
    (shader : Shader) :
    (updateLights glsl actor camera shader).transform = actor.transform := by
  unfold updateLights
  split <;> rfl

/-- The `eye_position` block does not touch the actor transform. -/
theorem updateEyePosition_transform (glsl : GLSLProgram) (actor : Actor) (camera : Camera) :
    (updateEyePosition glsl actor camera).transform = actor.transform := by
  unfold updateEyePosition
  split <;> rfl

/-- The eye position depends on the actor through its transform only. -/
theorem eyePosition_congr (a b : Actor) (camera : Camera) (h : a.transform = b.transform) :
    eyePosition a camera = eyePosition b camera := by
  unfold eyePosition invMat
  rw [h]

/-- The eye look vector depends on the actor through its transform only. -/
theorem eyeLook_congr (a b : Actor) (camera : Camera) (h : a.transform = b.transform) :
    eyeLook a camera = eyeLook b camera := by
  unfold eyeLook
  rw [h]

/-- Reading any uniform after the light block. -/
theorem getUniform_updateLights (glsl : GLSLProgram) (actor : Actor) (camera : Camera)
    (shader : Shader) (m : String) :
    getUniform (updateLights glsl actor camera shader).uniforms m =
      if glsl.getUniformLocation "light_position" ≠ -1 ∧
          glsl.getUniformLocation "light_enable" ≠ -1 then
        if m = "light_enable" then
          some (.int1 (lightLoop actor camera shader (invMat actor)).light_enable)
        else if m = "light_position" then
          some (.float3 (lightLoop actor camera shader (invMat actor)).light_position)
        else getUniform actor.uniforms m
      else getUniform actor.uniforms m := by
  unfold updateLights
  split
  · simp only [Actor.gocSetUniform, getUniform_gocSetUniform]
  · rfl

/-- Reading any uniform after the `eye_position` block. -/
theorem getUniform_updateEyePosition (glsl : GLSLProgram) (actor : Actor) (camera : Camera)
    (m : String) :
    getUniform (updateEyePosition glsl actor camera).uniforms m =
      if glsl.getUniformLocation "eye_position" ≠ -1 ∧ m = "eye_position" then
        some (.float3 [eyePosition actor camera])
      else getUniform actor.uniforms m := by
  unfold updateEyePosition
  by_cases h : glsl.getUniformLocation "eye_position" ≠ -1
  · by_cases hm : m = "eye_position" <;>
      simp [h, hm, Actor.gocSetUniform, getUniform_gocSetUniform]
  · simp [h]

/-- Reading any uniform after the `eye_look` block. -/
theorem getUniform_updateEyeLook (glsl : GLSLProgram) (actor : Actor) (camera : Camera)
    (m : String) :
    getUniform (updateEyeLook glsl actor camera).uniforms m =
      if glsl.getUniformLocation "eye_look" ≠ -1 ∧ m = "eye_look" then
        some (.float3 [eyeLook actor camera])
      else getUniform actor.uniforms m := by
  unfold updateEyeLook
  by_cases h : glsl.getUniformLocation "eye_look" ≠ -1
  · by_cases hm : m = "eye_look" <;>
      simp [h, hm, Actor.gocSetUniform, getUniform_gocSetUniform]
  · simp [h]

/-- With a program bound, `updateUniforms` is the composition of its three
guarded blocks. -/
theorem updateUniforms_some (actor : Actor) (clock : ℚ) (camera : Camera) (rend : Geometry)
    (glsl : GLSLProgram) (lights : Nat → Option Light) :
    updateUniforms actor clock camera rend ⟨some glsl, lights⟩ =
      some (updateEyeLook glsl
        (updateEyePosition glsl (updateLights glsl actor camera ⟨some glsl, lights⟩) camera)
        camera) := rfl

/-- Reading any uniform after the three blocks of `updateUniforms`. -/
theorem getUniform_blocks (glsl : GLSLProgram) (actor : Actor) (camera : Camera)
    (shader : Shader) (m : String) :
    getUniform (updateEyeLook glsl
        (updateEyePosition glsl (updateLights glsl actor camera shader) camera)
        camera).uniforms m =
      if glsl.getUniformLocation "eye_look" ≠ -1 ∧ m = "eye_look" then
        some (.float3 [eyeLook actor camera])
      else if glsl.getUniformLocation "eye_position" ≠ -1 ∧ m = "eye_position" then
        some (.float3 [eyePosition actor camera])
      else getUniform (updateLights glsl actor camera shader).uniforms m := by
  rw [getUniform_updateEyeLook, getUniform_updateEyePosition]
  rw [eyeLook_congr _ actor camera
    ((updateEyePosition_transform _ _ _).trans (updateLights_transform _ _ _ _))]
  rw [eyePosition_congr _ actor camera (updateLights_transform _ _ _ _)]

/-- The light block leaves every selection of uniforms by name unchanged
that excludes the names it writes. -/
theorem filter_updateLights (q : String → Bool) (glsl : GLSLProgram) (actor : Actor)
    (camera : Camera) (shader : Shader)
    (hq : (glsl.getUniformLocation "light_position" ≠ -1 ∧
        glsl.getUniformLocation "light_enable" ≠ -1) →
      q "light_position" = false ∧ q "light_enable" = false) :
    (updateLights glsl actor camera shader).uniforms.filter (fun u => q u.name) =
      actor.uniforms.filter (fun u => q u.name) := by
  unfold updateLights
  split
  · rename_i hg
    obtain ⟨h1, h2⟩ := hq hg
    simp only [Actor.gocSetUniform]
    rw [filter_gocSetUniform q _ _ _ h2, filter_gocSetUniform q _ _ _ h1]
  · rfl

/-- The `eye_position` block leaves every selection of uniforms by name
unchanged that excludes the name it writes. -/
theorem filter_updateEyePosition (q : String → Bool) (glsl : GLSLProgram) (actor : Actor)
    (camera : Camera)
    (hq : glsl.getUniformLocation "eye_position" ≠ -1 → q "eye_position" = false) :
    (updateEyePosition glsl actor camera).uniforms.filter (fun u => q u.name) =
      actor.uniforms.filter (fun u => q u.name) := by
  unfold updateEyePosition
  split
  · rename_i hg
    simp only [Actor.gocSetUniform]
    rw [filter_gocSetUniform q _ _ _ (hq hg)]
  · rfl

/-- The `eye_look` block leaves every selection of uniforms by name unchanged
that excludes the name it writes. -/
theorem filter_updateEyeLook (q : String → Bool) (glsl : GLSLProgram) (actor : Actor)
    (camera : Camera)
    (hq : glsl.getUniformLocation "eye_look" ≠ -1 → q "eye_look" = false) :
    (updateEyeLook glsl actor camera).uniforms.filter (fun u => q u.name) =
      actor.uniforms.filter (fun u => q u.name) := by
  unfold updateEyeLook
  split
  · rename_i hg
    simp only [Actor.gocSetUniform]
    rw [filter_gocSetUniform q _ _ _ (hq hg)]
  · rfl

/-- The light block returns the actor as it is unless both light uniforms
are declared. -/
theorem updateLights_skip (glsl : GLSLProgram) (actor : Actor) (camera : Camera)
    (shader : Shader)
    (h : ¬ (glsl.getUniformLocation "light_position" ≠ -1 ∧
      glsl.getUniformLocation "light_enable" ≠ -1)) :
    updateLights glsl actor camera shader = actor := by
  unfold updateLights
  rw [if_neg h]

/-- The `eye_position` block returns the actor as it is when the uniform is
not declared. -/
theorem updateEyePosition_skip (glsl : GLSLProgram) (actor : Actor) (camera : Camera)
    (h : glsl.getUniformLocation "eye_position" = -1) :
    updateEyePosition glsl actor camera = actor := by
  unfold updateEyePosition
  rw [if_neg (not_not.mpr h)]

/-- The `eye_look` block returns the actor as it is when the uniform is not
declared. -/
theorem updateEyeLook_skip (glsl : GLSLProgram) (actor : Actor) (camera : Camera)
    (h : glsl.getUniformLocation "eye_look" = -1) :
    updateEyeLook glsl actor camera = actor := by
  unfold updateEyeLook
  rw [if_neg (not_not.mpr h)]

/-- Erasing the first occurrence of `p` does not affect the other elements
or their order. -/
theorem filter_ne_erase (l : List Ptr) (p : Ptr) :
    (l.erase p).filter (fun c => c ≠ p) = l.filter (fun c => c ≠ p) := by
  induction l with
  | nil => rfl
  | cons a l ih =>
    by_cases h : a = p
    · subst h
      simp
    · have h2 : (a == p) = false := by simpa using h
      rw [List.erase_cons, h2]
      simp only [ne_eq, decide_not] at ih
      simp [List.filter_cons, h, ih]

/-- C5: for every pass index >= 1, whatever the actor, camera and shader
(program bound or not), `onActorRenderStarted` returns at once: the actor,
and with it its uniform store, is returned unchanged. -/
theorem onActorRenderStarted_later_pass (actor : Actor) (clock : ℚ) (camera : Camera)
    (rend : Geometry) (shader : Shader) (pass : Int) (hpass : 1 ≤ pass) :
    onActorRenderStarted actor clock camera rend shader pass = some actor := by
  unfold onActorRenderStarted
  rw [if_pos (by omega)]

/-- C5 at pass 1 for the sample actor and a shader declaring all four
uniforms: the uniform store is the one of the sample actor. -/
theorem onActorRenderStarted_later_pass_witness :
    onActorRenderStarted sampleActor 0 sampleCamera RaycastVolume.RaycastVolume.mGeometry
        (sampleShader ["light_position", "light_enable", "eye_position", "eye_look"]) 1 =
      some sampleActor :=
  onActorRenderStarted_later_pass sampleActor 0 sampleCamera
    RaycastVolume.RaycastVolume.mGeometry
    (sampleShader ["light_position", "light_enable", "eye_position", "eye_look"]) 1
    (by decide)

/-- C6: on pass 0 `onActorRenderStarted` yields what `updateUniforms` yields
on the same arguments when the shader has a GLSL program, and the unchanged
actor when it has none; on no pass and for no shader does it run into the
failed assertion of `updateUniforms` (the result is never `none`). -/
theorem onActorRenderStarted_first_pass (actor : Actor) (clock : ℚ) (camera : Camera)
    (rend : Geometry) (lights : Nat → Option Light) :
    (∀ glsl : GLSLProgram,
        onActorRenderStarted actor clock camera rend ⟨some glsl, lights⟩ 0 =
          updateUniforms actor clock camera rend ⟨some glsl, lights⟩ ∧
        (updateUniforms actor clock camera rend ⟨some glsl, lights⟩).isSome = true) ∧
      onActorRenderStarted actor clock camera rend ⟨none, lights⟩ 0 = some actor ∧
      updateUniforms actor clock camera rend ⟨none, lights⟩ = none ∧
      ∀ (shader : Shader) (pass : Int),
        (onActorRenderStarted actor clock camera rend shader pass).isSome = true := by
  refine ⟨fun glsl => ⟨rfl, rfl⟩, rfl, rfl, ?_⟩
  intro shader pass
  unfold onActorRenderStarted
  split
  · rfl
  · cases hg : shader.getGLSLProgram with
    | none => rfl
    | some glsl =>
      simp only [Option.isSome_some, if_true, updateUniforms, hg]

/-- C7: when the callback list of the actor contains the hook at most once,
after `bindActor` it contains the hook exactly once, as its last element,
the other callbacks keep their relative order, slot 0 of the levels of
detail is the box geometry of the volume, and a second `bindActor` gives the
same callback list as the first. -/
theorem bindActor_registration (self : vl.RaycastVolume) (thisPtr : Ptr) (actor : Actor)
    (honce : actor.actorEventCallbacks.count thisPtr ≤ 1) :
    (bindActor self thisPtr actor).actorEventCallbacks.count thisPtr = 1 ∧
      (bindActor self thisPtr actor).actorEventCallbacks.getLast? = some thisPtr ∧
      (bindActor self thisPtr actor).actorEventCallbacks.filter (fun c => c ≠ thisPtr) =
        actor.actorEventCallbacks.filter (fun c => c ≠ thisPtr) ∧
      (bindActor self thisPtr actor).lod 0 = some self.mGeometry ∧
      (bindActor self thisPtr (bindActor self thisPtr actor)).actorEventCallbacks =
        (bindActor self thisPtr actor).actorEventCallbacks := by
  have hcb : ∀ a : Actor, (bindActor self thisPtr a).actorEventCallbacks =
      a.actorEventCallbacks.erase thisPtr ++ [thisPtr] := fun _ => rfl
  have hcount : (actor.actorEventCallbacks.erase thisPtr).count thisPtr = 0 := by
    rw [List.count_erase_self]
    omega
  have hnot : thisPtr ∉ actor.actorEventCallbacks.erase thisPtr :=
    List.count_eq_zero.mp hcount
  refine ⟨?_, ?_, ?_, ?_, ?_⟩
  · rw [hcb, List.count_append, hcount]
    simp
  · rw [hcb]
    simp
  · rw [hcb, List.filter_append, filter_ne_erase]
    simp
  · simp [bindActor]
  · rw [hcb, hcb, List.erase_append_right _ hnot]
    simp

/-- C7 at the sample actor, whose callbacks are 3, 7, 5, for the hook at
address 7: the list becomes 3, 5, 7 and stays so on a second call. -/
theorem bindActor_registration_witness :
    (bindActor RaycastVolume.RaycastVolume 7 sampleActor).actorEventCallbacks.count 7 = 1 ∧
      (bindActor RaycastVolume.RaycastVolume 7 sampleActor).actorEventCallbacks.getLast? =
        some 7 ∧
      (bindActor RaycastVolume.RaycastVolume 7 sampleActor).actorEventCallbacks.filter
          (fun c => c ≠ 7) =
        sampleActor.actorEventCallbacks.filter (fun c => c ≠ 7) ∧
      (bindActor RaycastVolume.RaycastVolume 7 sampleActor).lod 0 =
        some RaycastVolume.RaycastVolume.mGeometry ∧
      (bindActor RaycastVolume.RaycastVolume 7
          (bindActor RaycastVolume.RaycastVolume 7 sampleActor)).actorEventCallbacks =
        (bindActor RaycastVolume.RaycastVolume 7 sampleActor).actorEventCallbacks :=
  bindActor_registration RaycastVolume.RaycastVolume 7 sampleActor (by decide)

/-- C8: when the program declares both `light_position` and `light_enable`,
for every assignment of lights to the slots `updateUniforms` leaves a
4-element `light_enable` array whose entry `i` is 1 when slot `i` holds a
light and 0 when it is empty, and a 4-element `light_position` array whose
entry is the zero vector for every empty slot; with no light at all the
arrays are `[0,0,0,0]` and four zero vectors. -/
theorem updateUniforms_light_arrays (actor : Actor) (clock : ℚ) (camera : Camera)
    (rend : Geometry) (glsl : GLSLProgram) (lights : Nat → Option Light)
    (hpos : glsl.getUniformLocation "light_position" ≠ -1)
    (hen : glsl.getUniformLocation "light_enable" ≠ -1) :
    ∃ (actor1 : Actor) (en : List Int) (pos : List fvec3),
      updateUniforms actor clock camera rend ⟨some glsl, lights⟩ = some actor1 ∧
      getUniform actor1.uniforms "light_enable" = some (.int1 en) ∧
      getUniform actor1.uniforms "light_position" = some (.float3 pos) ∧
      en.length = 4 ∧ pos.length = 4 ∧
      (∀ i, i < 4 → (en[i]? = some 1 ↔ (lights i).isSome = true) ∧
        (en[i]? = some 0 ↔ lights i = none) ∧
        (lights i = none → pos[i]? = some ⟨0, 0, 0⟩)) ∧
      ((∀ i, i < 4 → lights i = none) →
        en = [0, 0, 0, 0] ∧ pos = [⟨0, 0, 0⟩, ⟨0, 0, 0⟩, ⟨0, 0, 0⟩, ⟨0, 0, 0⟩]) := by
  refine ⟨_, (lightLoop actor camera ⟨some glsl, lights⟩ (invMat actor)).light_enable,
    (lightLoop actor camera ⟨some glsl, lights⟩ (invMat actor)).light_position,
    updateUniforms_some actor clock camera rend glsl lights, ?_, ?_, ?_, ?_, ?_, ?_⟩
  · rw [getUniform_blocks, getUniform_updateLights]
    simp [hpos, hen]
  · rw [getUniform_blocks, getUniform_updateLights]
    simp [hpos, hen]
  · rw [lightLoop_light_enable]
    rfl
  · exact lightLoop_light_position_length _ _ _ _
  · intro i hi
    refine ⟨?_, ?_, ?_⟩
    · rw [lightLoop_light_enable,
        four_getElem? (fun k => if (lights k).isSome then (1 : Int) else 0) i hi]
      cases h : lights i <;> simp [h]
    · rw [lightLoop_light_enable,
        four_getElem? (fun k => if (lights k).isSome then (1 : Int) else 0) i hi]
      cases h : lights i <;> simp [h]
    · intro hnone
      exact lightLoop_light_position_empty _ _ _ _ i hi hnone
  · intro hall
    have h0 := hall 0 (by decide)
    have h1 := hall 1 (by decide)
    have h2 := hall 2 (by decide)
    have h3 := hall 3 (by decide)
    constructor
    · rw [lightLoop_light_enable]
      simp [h0, h1, h2, h3]
    · simp [lightLoop, lightLoopBody, List.range, List.range.loop, h0, h1, h2, h3, default]

/-- C8 at the sample actor and a program declaring the two light uniforms,
with one light in slot 1. -/
theorem updateUniforms_light_arrays_witness :
    ∃ (actor1 : Actor) (en : List Int) (pos : List fvec3),
      updateUniforms sampleActor 0 sampleCamera RaycastVolume.RaycastVolume.mGeometry
        ⟨some (programDeclaring ["light_position", "light_enable"]), sampleLights⟩ =
          some actor1 ∧
      getUniform actor1.uniforms "light_enable" = some (.int1 en) ∧
      getUniform actor1.uniforms "light_position" = some (.float3 pos) ∧
      en.length = 4 ∧ pos.length = 4 ∧
      (∀ i, i < 4 → (en[i]? = some 1 ↔ (sampleLights i).isSome = true) ∧
        (en[i]? = some 0 ↔ sampleLights i = none) ∧
        (sampleLights i = none → pos[i]? = some ⟨0, 0, 0⟩)) ∧
      ((∀ i, i < 4 → sampleLights i = none) →
        en = [0, 0, 0, 0] ∧ pos = [⟨0, 0, 0⟩, ⟨0, 0, 0⟩, ⟨0, 0, 0⟩, ⟨0, 0, 0⟩]) :=
  updateUniforms_light_arrays sampleActor 0 sampleCamera RaycastVolume.RaycastVolume.mGeometry
    (programDeclaring ["light_position", "light_enable"]) sampleLights
    (by decide) (by decide)

/-- C9 as stated fails: a program that declares `light_position` but not
`light_enable` gets no `light_position` written.  On the actor with an empty
uniform store `updateUniforms` returns the actor as it was, the store still
has no uniform `light_position`. -/
theorem updateUniforms_guards_counterexample :
    (programDeclaring ["light_position"]).getUniformLocation "light_position" ≠ -1 ∧
      updateUniforms bareActor 0 sampleCamera RaycastVolume.RaycastVolume.mGeometry
        (sampleShader ["light_position"]) = some bareActor ∧
      getUniform bareActor.uniforms "light_position" = none := by
  refine ⟨by decide, ?_, rfl⟩
  show some _ = some bareActor
  rw [updateLights_skip _ _ _ _ (by decide), updateEyePosition_skip _ _ _ (by decide),
    updateEyeLook_skip _ _ _ (by decide)]

/-- C9, amended: with a program bound `updateUniforms` succeeds, and
`light_position` and `light_enable` are written (with the arrays computed by
the light loop) exactly when both are declared, otherwise they read as
before; `eye_position` is written exactly when it is declared, and so is
`eye_look`, each whatever else is declared. -/
theorem updateUniforms_guards (actor : Actor) (clock : ℚ) (camera : Camera) (rend : Geometry)
    (glsl : GLSLProgram) (lights : Nat → Option Light) :
    ∃ actor1 : Actor,
      updateUniforms actor clock camera rend ⟨some glsl, lights⟩ = some actor1 ∧
      getUniform actor1.uniforms "light_position" =
        (if glsl.getUniformLocation "light_position" ≠ -1 ∧
            glsl.getUniformLocation "light_enable" ≠ -1 then
          some (.float3
            (lightLoop actor camera ⟨some glsl, lights⟩ (invMat actor)).light_position)
        else getUniform actor.uniforms "light_position") ∧
      getUniform actor1.uniforms "light_enable" =
        (if glsl.getUniformLocation "light_position" ≠ -1 ∧
            glsl.getUniformLocation "light_enable" ≠ -1 then
          some (.int1
            (lightLoop actor camera ⟨some glsl, lights⟩ (invMat actor)).light_enable)
        else getUniform actor.uniforms "light_enable") ∧
      getUniform actor1.uniforms "eye_position" =
        (if glsl.getUniformLocation "eye_position" ≠ -1 then
          some (.float3 [eyePosition actor camera])
        else getUniform actor.uniforms "eye_position") ∧
      getUniform actor1.uniforms "eye_look" =
        (if glsl.getUniformLocation "eye_look" ≠ -1 then
          some (.float3 [eyeLook actor camera])
        else getUniform actor.uniforms "eye_look") := by
  refine ⟨_, updateUniforms_some actor clock camera rend glsl lights, ?_, ?_, ?_, ?_⟩
  · rw [getUniform_blocks, getUniform_updateLights]
    simp
  · rw [getUniform_blocks, getUniform_updateLights]
    simp
  · rw [getUniform_blocks, getUniform_updateLights]
    by_cases h : glsl.getUniformLocation "eye_position" = -1 <;> simp [h]
  · rw [getUniform_blocks, getUniform_updateLights]
    by_cases h : glsl.getUniformLocation "eye_look" = -1 <;> simp [h]

/-- C10: when the program declares neither `light_position` nor
`light_enable`, for every light configuration `updateUniforms` leaves the
uniforms of these two names as they were, none created, none modified; when
`eye_position` and `eye_look` are not declared either the whole actor, and
with it the whole uniform store, is unchanged. -/
theorem updateUniforms_no_light_uniforms (actor : Actor) (clock : ℚ) (camera : Camera)
    (rend : Geometry) (glsl : GLSLProgram) (lights : Nat → Option Light)
    (hpos : glsl.getUniformLocation "light_position" = -1)
    (hen : glsl.getUniformLocation "light_enable" = -1) :
    ∃ actor1 : Actor,
      updateUniforms actor clock camera rend ⟨some glsl, lights⟩ = some actor1 ∧
      getUniform actor1.uniforms "light_position" =
        getUniform actor.uniforms "light_position" ∧
      getUniform actor1.uniforms "light_enable" = getUniform actor.uniforms "light_enable" ∧
      actor1.uniforms.filter
          (fun u => decide (u.name = "light_position" ∨ u.name = "light_enable")) =
        actor.uniforms.filter
          (fun u => decide (u.name = "light_position" ∨ u.name = "light_enable")) ∧
      (glsl.getUniformLocation "eye_position" = -1 →
        glsl.getUniformLocation "eye_look" = -1 → actor1 = actor) := by
  have hskip : ¬ (glsl.getUniformLocation "light_position" ≠ -1 ∧
      glsl.getUniformLocation "light_enable" ≠ -1) := fun h => h.1 hpos
  refine ⟨_, updateUniforms_some actor clock camera rend glsl lights, ?_, ?_, ?_, ?_⟩
  · rw [getUniform_blocks, getUniform_updateLights]
    simp [hpos]
  · rw [getUniform_blocks, getUniform_updateLights]
    simp [hpos]
  · rw [filter_updateEyeLook
        (fun n => decide (n = "light_position" ∨ n = "light_enable")) _ _ _
        (fun _ => by decide),
      filter_updateEyePosition
        (fun n => decide (n = "light_position" ∨ n = "light_enable")) _ _ _
        (fun _ => by decide),
      filter_updateLights
        (fun n => decide (n = "light_position" ∨ n = "light_enable")) _ _ _ _
        (fun h => absurd h hskip)]
  · intro hep hel
    rw [updateLights_skip _ _ _ _ hskip, updateEyePosition_skip _ _ _ hep,
      updateEyeLook_skip _ _ _ hel]

/-- C10 at the sample actor and a program declaring only `eye_position`. -/
theorem updateUniforms_no_light_uniforms_witness :
    ∃ actor1 : Actor,
      updateUniforms sampleActor 0 sampleCamera RaycastVolume.RaycastVolume.mGeometry
        ⟨some (programDeclaring ["eye_position"]), sampleLights⟩ = some actor1 ∧
      getUniform actor1.uniforms "light_position" =
        getUniform sampleActor.uniforms "light_position" ∧
      getUniform actor1.uniforms "light_enable" =
        getUniform sampleActor.uniforms "light_enable" ∧
      actor1.uniforms.filter
          (fun u => decide (u.name = "light_position" ∨ u.name = "light_enable")) =
        sampleActor.uniforms.filter
          (fun u => decide (u.name = "light_position" ∨ u.name = "light_enable")) ∧
      ((programDeclaring ["eye_position"]).getUniformLocation "eye_position" = -1 →
        (programDeclaring ["eye_position"]).getUniformLocation "eye_look" = -1 →
        actor1 = sampleActor) :=
  updateUniforms_no_light_uniforms sampleActor 0 sampleCamera
    RaycastVolume.RaycastVolume.mGeometry (programDeclaring ["eye_position"]) sampleLights
    (by decide) (by decide)

end RaycastVolume

/-! ## Matrix facts used by the eye and light uniforms -/

/-- The inverse of the identity matrix is the identity matrix. -/
theorem fmat4.getInverse_one : fmat4.getInverse 1 = 1 := by
  simp [fmat4.getInverse]

/-- The transpose of the identity matrix is the identity matrix. -/
theorem fmat4.getTransposed_one : fmat4.getTransposed 1 = 1 := by
  simp [fmat4.getTransposed]

/-- The identity matrix maps every position to itself. -/
theorem fmat4.mulVec3_one (v : fvec3) : fmat4.mulVec3 1 v = v := by
  simp [fmat4.mulVec3, Matrix.one_apply]

namespace RaycastVolume

/-- C11: when the actor has no transform, or the world matrix of its
transform is the identity, and the program declares `eye_position` and
`eye_look`, `updateUniforms` writes `eye_position` equal to the translation
component of the inverse view matrix of the camera and `eye_look` equal to
its negated Z basis vector, both unchanged. -/
theorem updateUniforms_eye_identity (actor : Actor) (clock : ℚ) (camera : Camera)
    (rend : Geometry) (glsl : GLSLProgram) (lights : Nat → Option Light)
    (hep : glsl.getUniformLocation "eye_position" ≠ -1)
    (hel : glsl.getUniformLocation "eye_look" ≠ -1)
    (hid : actor.transform = none ∨
      ∃ t : Transform, actor.transform = some t ∧ t.worldMatrix = 1) :
    ∃ actor1 : Actor,
      updateUniforms actor clock camera rend ⟨some glsl, lights⟩ = some actor1 ∧
      getUniform actor1.uniforms "eye_position" =
        some (.float3 [camera.inverseViewMatrix.getT]) ∧
      getUniform actor1.uniforms "eye_look" =
        some (.float3 [camera.inverseViewMatrix.getZ.neg]) := by
  have heye : eyePosition actor camera = camera.inverseViewMatrix.getT := by
    rcases hid with h | ⟨t, h, ht⟩
    · simp [eyePosition, h]
    · simp [eyePosition, invMat, h, ht, fmat4.getInverse_one, fmat4.mulVec3_one]
  have hlook : eyeLook actor camera = camera.inverseViewMatrix.getZ.neg := by
    rcases hid with h | ⟨t, h, ht⟩
    · simp [eyeLook, h]
    · simp [eyeLook, h, ht, fmat4.getInverse_one, fmat4.getTransposed_one,
        fmat4.mulVec3_one]
  refine ⟨_, updateUniforms_some actor clock camera rend glsl lights, ?_, ?_⟩
  · rw [getUniform_blocks, heye]
    simp [hep]
  · rw [getUniform_blocks, hlook]
    simp [hel]

/-- C11 at the actor with the identity world matrix and the sample camera:
the eye is at (5,6,7) and looks along (0,0,-1). -/
theorem updateUniforms_eye_identity_witness :
    ∃ actor1 : Actor,
      updateUniforms identityActor 0 sampleCamera RaycastVolume.RaycastVolume.mGeometry
        ⟨some (programDeclaring ["eye_position", "eye_look"]), sampleLights⟩ = some actor1 ∧
      getUniform actor1.uniforms "eye_position" =
        some (.float3 [sampleCamera.inverseViewMatrix.getT]) ∧
      getUniform actor1.uniforms "eye_look" =
        some (.float3 [sampleCamera.inverseViewMatrix.getZ.neg]) :=
  updateUniforms_eye_identity identityActor 0 sampleCamera
    RaycastVolume.RaycastVolume.mGeometry (programDeclaring ["eye_position", "eye_look"])
    sampleLights (by decide) (by decide) (Or.inr ⟨⟨1⟩, rfl, rfl⟩)

/-- The vertex array after `setBox` on a volume holding 8 vertices. -/
theorem setBox_mVertCoord (self : vl.RaycastVolume) (box : AABB)
    (hlen : self.mVertCoord.length = 8) :
    (self.setBox box).mVertCoord = box_verts box := by
  show memcpy self.mGeometry.vertexArray (box_verts box) = _
  exact memcpy_of_length_eq _ _ (by rw [box_verts_length]; exact hlen)

/-- The texture coordinates after `generateTextureCoordinates` with no zero
component on a volume holding 8 texture coordinates. -/
theorem generateTextureCoordinates_mTexCoord (self : vl.RaycastVolume) (size : ivec3)
    (hx : size.x ≠ 0) (hy : size.y ≠ 0) (hz : size.z ≠ 0)
    (hlen : self.mTexCoord.length = 8) :
    (self.generateTextureCoordinates size).1.mTexCoord = inset_texc size := by
  rw [generateTextureCoordinates_pos self size hx hy hz]
  show memcpy self.mGeometry.texCoordArray (inset_texc size) = _
  exact memcpy_of_length_eq _ _ (by rw [inset_texc_length]; exact hlen)

/-- C12 as stated fails: at resolution (2,2,2) corner 0 gets the high
texture z, 1 - 0.5/2 = 3/4 (the low value being 1/4), and `setBox` on the
unit box places corner 0 at z = 1, the z = max face, not at z = min = 0. -/
theorem texture_vertex_z_swap_counterexample :
    ((RaycastVolume.generateTextureCoordinates RaycastVolume.RaycastVolume
        ⟨2, 2, 2⟩).1.mTexCoord.map fvec3.z)[0]? = some (1 - (1 / 2) / ((2 : Int) : ℚ)) ∧
      (1 - (1 / 2) / ((2 : Int) : ℚ) : ℚ) ≠ (1 / 2) / ((2 : Int) : ℚ) ∧
      ((RaycastVolume.setBox RaycastVolume.RaycastVolume
        ⟨⟨0, 0, 0⟩, ⟨1, 1, 1⟩⟩).mVertCoord.map fvec3.z)[0]? =
          some (AABB.maxCorner ⟨⟨0, 0, 0⟩, ⟨1, 1, 1⟩⟩).z ∧
      (AABB.maxCorner ⟨⟨0, 0, 0⟩, ⟨1, 1, 1⟩⟩).z ≠ (AABB.minCorner ⟨⟨0, 0, 0⟩, ⟨1, 1, 1⟩⟩).z := by
  refine ⟨?_, by norm_num, ?_, by norm_num⟩
  · rw [generateTextureCoordinates_mTexCoord RaycastVolume.RaycastVolume ⟨2, 2, 2⟩
      (by decide) (by decide) (by decide) rfl]
    simp [inset_texc]
  · rw [setBox_mVertCoord RaycastVolume.RaycastVolume _ rfl]
    simp [box_verts]

/-- C12, amended: the texture coordinates written by
`generateTextureCoordinates` follow the same corner order as the vertices
written by `setBox`, with no z swap.  For every positive resolution and every
box with z-min < z-max (on a volume holding its 8 vertices and 8 texture
coordinates), corners 0-3 are the corners `setBox` places on the z = max
face and they get the high texture z, `1 - 0.5/rz`; corners 4-7 are those on
the z = min face and they get the low texture z, `0.5/rz`. -/
theorem texture_vertex_z_same_order (self : vl.RaycastVolume) (B : AABB) (size : ivec3)
    (hx : 0 < size.x) (hy : 0 < size.y) (hz : 0 < size.z)
    (hbox : B.minCorner.z < B.maxCorner.z)
    (hlenV : self.mVertCoord.length = 8) (hlenT : self.mTexCoord.length = 8) :
    (self.setBox B).mVertCoord.map fvec3.z =
        [ B.maxCorner.z, B.maxCorner.z, B.maxCorner.z, B.maxCorner.z,
          B.minCorner.z, B.minCorner.z, B.minCorner.z, B.minCorner.z ] ∧
      (self.generateTextureCoordinates size).1.mTexCoord.map fvec3.z =
        [ 1 - (1 / 2) / (size.z : ℚ), 1 - (1 / 2) / (size.z : ℚ),
          1 - (1 / 2) / (size.z : ℚ), 1 - (1 / 2) / (size.z : ℚ),
          (1 / 2) / (size.z : ℚ), (1 / 2) / (size.z : ℚ),
          (1 / 2) / (size.z : ℚ), (1 / 2) / (size.z : ℚ) ] ∧
      ∀ i, i < 8 →
        ∃ v t, (self.setBox B).mVertCoord[i]? = some v ∧
          (self.generateTextureCoordinates size).1.mTexCoord[i]? = some t ∧
          (v.z = B.maxCorner.z ↔ i < 4) ∧ (v.z = B.minCorner.z ↔ 4 ≤ i) ∧
          (i < 4 → t.z = 1 - (1 / 2) / (size.z : ℚ)) ∧
          (4 ≤ i → t.z = (1 / 2) / (size.z : ℚ)) := by
  rw [setBox_mVertCoord self B hlenV,
    generateTextureCoordinates_mTexCoord self size (ne_of_gt hx) (ne_of_gt hy) (ne_of_gt hz)
      hlenT]
  have hne : B.minCorner.z ≠ B.maxCorner.z := ne_of_lt hbox
  have hne2 : B.maxCorner.z ≠ B.minCorner.z := fun e => hne e.symm
  refine ⟨by simp [box_verts], by simp [inset_texc], ?_⟩
  intro i hi
  interval_cases i <;> simp [box_verts, inset_texc, hne, hne2]

/-- C12, amended, at the freshly constructed volume, the box
[0,0,-1]-[1,1,3] and the resolution (2,2,4). -/
theorem texture_vertex_z_same_order_witness :
    (RaycastVolume.setBox RaycastVolume.RaycastVolume
        ⟨⟨0, 0, -1⟩, ⟨1, 1, 3⟩⟩).mVertCoord.map fvec3.z =
        [ (AABB.maxCorner ⟨⟨0, 0, -1⟩, ⟨1, 1, 3⟩⟩).z, (AABB.maxCorner ⟨⟨0, 0, -1⟩, ⟨1, 1, 3⟩⟩).z,
          (AABB.maxCorner ⟨⟨0, 0, -1⟩, ⟨1, 1, 3⟩⟩).z, (AABB.maxCorner ⟨⟨0, 0, -1⟩, ⟨1, 1, 3⟩⟩).z,
          (AABB.minCorner ⟨⟨0, 0, -1⟩, ⟨1, 1, 3⟩⟩).z, (AABB.minCorner ⟨⟨0, 0, -1⟩, ⟨1, 1, 3⟩⟩).z,
          (AABB.minCorner ⟨⟨0, 0, -1⟩, ⟨1, 1, 3⟩⟩).z,
          (AABB.minCorner ⟨⟨0, 0, -1⟩, ⟨1, 1, 3⟩⟩).z ] ∧
      (RaycastVolume.generateTextureCoordinates RaycastVolume.RaycastVolume
          ⟨2, 2, 4⟩).1.mTexCoord.map fvec3.z =
        [ 1 - (1 / 2) / ((ivec3.z ⟨2, 2, 4⟩ : Int) : ℚ),
          1 - (1 / 2) / ((ivec3.z ⟨2, 2, 4⟩ : Int) : ℚ),
          1 - (1 / 2) / ((ivec3.z ⟨2, 2, 4⟩ : Int) : ℚ),
          1 - (1 / 2) / ((ivec3.z ⟨2, 2, 4⟩ : Int) : ℚ),
          (1 / 2) / ((ivec3.z ⟨2, 2, 4⟩ : Int) : ℚ), (1 / 2) / ((ivec3.z ⟨2, 2, 4⟩ : Int) : ℚ),
          (1 / 2) / ((ivec3.z ⟨2, 2, 4⟩ : Int) : ℚ),
          (1 / 2) / ((ivec3.z ⟨2, 2, 4⟩ : Int) : ℚ) ] ∧
      ∀ i, i < 8 →
        ∃ v t, (RaycastVolume.setBox RaycastVolume.RaycastVolume
            ⟨⟨0, 0, -1⟩, ⟨1, 1, 3⟩⟩).mVertCoord[i]? = some v ∧
          (RaycastVolume.generateTextureCoordinates RaycastVolume.RaycastVolume
            ⟨2, 2, 4⟩).1.mTexCoord[i]? = some t ∧
          (v.z = (AABB.maxCorner ⟨⟨0, 0, -1⟩, ⟨1, 1, 3⟩⟩).z ↔ i < 4) ∧
          (v.z = (AABB.minCorner ⟨⟨0, 0, -1⟩, ⟨1, 1, 3⟩⟩).z ↔ 4 ≤ i) ∧
          (i < 4 → t.z = 1 - (1 / 2) / ((ivec3.z ⟨2, 2, 4⟩ : Int) : ℚ)) ∧
          (4 ≤ i → t.z = (1 / 2) / ((ivec3.z ⟨2, 2, 4⟩ : Int) : ℚ)) :=
  texture_vertex_z_same_order RaycastVolume.RaycastVolume ⟨⟨0, 0, -1⟩, ⟨1, 1, 3⟩⟩ ⟨2, 2, 4⟩
    (by decide) (by decide) (by decide) (by norm_num) rfl rfl

end RaycastVolume

/-- The modelled inverse is the matrix inverse. -/
theorem fmat4.getInverse_eq_inv (m : fmat4) : fmat4.getInverse m = m⁻¹ := by
  rw [Matrix.inv_def, Ring.inverse_eq_inv']
  rfl

/-- The matrix `scaledWorldMatrixInverse` is a right inverse of
`scaledWorldMatrix`. -/
theorem scaledWorldMatrix_mul_inverse : scaledWorldMatrix * scaledWorldMatrixInverse = 1 := by
  ext i j
  fin_cases i <;> fin_cases j <;>
    simp [scaledWorldMatrix, scaledWorldMatrixInverse, Matrix.mul_apply, Fin.sum_univ_four,
      Matrix.vecHead, Matrix.vecTail] <;>
    norm_num

/-- The inverse of `scaledWorldMatrix`, computed. -/
theorem scaledWorldMatrix_getInverse :
    fmat4.getInverse scaledWorldMatrix = scaledWorldMatrixInverse := by
  rw [fmat4.getInverse_eq_inv]
  exact Matrix.inv_eq_right_inv scaledWorldMatrix_mul_inverse

namespace RaycastVolume

/-- The `light_position` entry of an occupied slot after the loop: the world
position of the light, taken through `inv_mat` when the actor has a
transform. -/
theorem lightLoop_light_position_occupied (actor : Actor) (camera : Camera) (shader : Shader)
    (inv_mat : fmat4) (i : Nat) (hi : i < 4) (l : Light) (hl : shader.getLight i = some l) :
    (lightLoop actor camera shader inv_mat).light_position[i]? =
      some (if actor.transform.isSome then inv_mat.mulVec3 (lightWorldPosition camera l)
        else lightWorldPosition camera l) := by
  have hi4 : i = 0 ∨ i = 1 ∨ i = 2 ∨ i = 3 := by omega
  rcases hi4 with rfl | rfl | rfl | rfl <;>
    cases h0 : shader.getLight 0 <;> cases h1 : shader.getLight 1 <;>
    cases h2 : shader.getLight 2 <;> cases h3 : shader.getLight 3 <;>
    simp_all [lightLoop, lightLoopBody, List.range, List.range.loop]

/-- C13: for every occupied light slot `i` (both light uniforms declared)
the written `light_position[i]` is obtained from the world position of the
light, which is the world matrix of the followed transform applied to the
xyz of the light position when the light follows a transform, and the xyz of
(inverse view matrix times the homogeneous light position) otherwise; the
written value is the inverse world matrix of the actor applied to that world
position, or the world position itself when the actor has no transform. -/
theorem updateUniforms_light_position (actor : Actor) (clock : ℚ) (camera : Camera)
    (rend : Geometry) (glsl : GLSLProgram) (lights : Nat → Option Light)
    (hpos : glsl.getUniformLocation "light_position" ≠ -1)
    (hen : glsl.getUniformLocation "light_enable" ≠ -1)
    (i : Nat) (hi : i < 4) (l : Light) (hl : lights i = some l) :
    ∃ (actor1 : Actor) (pos : List fvec3),
      updateUniforms actor clock camera rend ⟨some glsl, lights⟩ = some actor1 ∧
      getUniform actor1.uniforms "light_position" = some (.float3 pos) ∧
      pos[i]? = some
        (match actor.transform, l.followedTransform with
          | some t, some ft =>
            t.worldMatrix.getInverse.mulVec3 (ft.worldMatrix.mulVec3 l.position.xyz)
          | some t, none =>
            t.worldMatrix.getInverse.mulVec3 (camera.inverseViewMatrix.mulVec4 l.position).xyz
          | none, some ft => ft.worldMatrix.mulVec3 l.position.xyz
          | none, none => (camera.inverseViewMatrix.mulVec4 l.position).xyz) := by
  refine ⟨_, (lightLoop actor camera ⟨some glsl, lights⟩ (invMat actor)).light_position,
    updateUniforms_some actor clock camera rend glsl lights, ?_, ?_⟩
  · rw [getUniform_blocks, getUniform_updateLights]
    simp [hpos, hen]
  · rw [lightLoop_light_position_occupied actor camera ⟨some glsl, lights⟩ _ i hi l hl]
    cases ht : actor.transform <;> cases hf : l.followedTransform <;>
      simp [invMat, lightWorldPosition, ht, hf]

/-- C13 at the actor placed by `scaledWorldMatrix`, for the light in slot 2,
which follows a transform. -/
theorem updateUniforms_light_position_witness :
    ∃ (actor1 : Actor) (pos : List fvec3),
      updateUniforms scaledActor 0 sampleCamera RaycastVolume.RaycastVolume.mGeometry
        ⟨some (programDeclaring ["light_position", "light_enable"]), followingLights⟩ =
          some actor1 ∧
      getUniform actor1.uniforms "light_position" = some (.float3 pos) ∧
      pos[2]? = some
        (match scaledActor.transform, followingLight.followedTransform with
          | some t, some ft =>
            t.worldMatrix.getInverse.mulVec3 (ft.worldMatrix.mulVec3 followingLight.position.xyz)
          | some t, none =>
            t.worldMatrix.getInverse.mulVec3
              (sampleCamera.inverseViewMatrix.mulVec4 followingLight.position).xyz
          | none, some ft => ft.worldMatrix.mulVec3 followingLight.position.xyz
          | none, none =>
            (sampleCamera.inverseViewMatrix.mulVec4 followingLight.position).xyz) :=
  updateUniforms_light_position scaledActor 0 sampleCamera
    RaycastVolume.RaycastVolume.mGeometry (programDeclaring ["light_position", "light_enable"])
    followingLights (by decide) (by decide) 2 (by decide) followingLight rfl

/-- C14: for every actor with a transform of world matrix `W` and every
camera with inverse view matrix `V` (the two eye uniforms declared),
`updateUniforms` writes `eye_position` = inverse(W) applied to the
translation of `V` and `eye_look` = transpose(inverse(W)) applied to the
negated Z basis vector of `V`.  The look direction does not go through
inverse(W): for the world matrix `scaledWorldMatrix` and the sample camera
the two transforms give different vectors. -/
theorem updateUniforms_eye_transform (actor : Actor) (clock : ℚ) (camera : Camera)
    (rend : Geometry) (glsl : GLSLProgram) (lights : Nat → Option Light) (t : Transform)
    (ht : actor.transform = some t)
    (hep : glsl.getUniformLocation "eye_position" ≠ -1)
    (hel : glsl.getUniformLocation "eye_look" ≠ -1) :
    (∃ actor1 : Actor,
      updateUniforms actor clock camera rend ⟨some glsl, lights⟩ = some actor1 ∧
      getUniform actor1.uniforms "eye_position" =
        some (.float3 [t.worldMatrix.getInverse.mulVec3 camera.inverseViewMatrix.getT]) ∧
      getUniform actor1.uniforms "eye_look" =
        some (.float3
          [t.worldMatrix.getInverse.getTransposed.mulVec3
            camera.inverseViewMatrix.getZ.neg])) ∧
      scaledWorldMatrix.getInverse.getTransposed.mulVec3
          sampleCamera.inverseViewMatrix.getZ.neg ≠
        scaledWorldMatrix.getInverse.mulVec3 sampleCamera.inverseViewMatrix.getZ.neg := by
  constructor
  · refine ⟨_, updateUniforms_some actor clock camera rend glsl lights, ?_, ?_⟩
    · rw [getUniform_blocks]
      simp [hep, eyePosition, invMat, ht]
    · rw [getUniform_blocks]
      simp [hel, eyeLook, ht]
  · rw [scaledWorldMatrix_getInverse]
    simp [fmat4.mulVec3, fmat4.getTransposed, fmat4.getZ, fvec3.neg, sampleCamera,
      scaledWorldMatrixInverse, Matrix.vecHead, Matrix.vecTail]

/-- C14 at the actor placed by `scaledWorldMatrix` and the sample camera. -/
theorem updateUniforms_eye_transform_witness :
    (∃ actor1 : Actor,
      updateUniforms scaledActor 0 sampleCamera RaycastVolume.RaycastVolume.mGeometry
        ⟨some (programDeclaring ["eye_position", "eye_look"]), sampleLights⟩ = some actor1 ∧
      getUniform actor1.uniforms "eye_position" =
        some (.float3
          [(Transform.mk scaledWorldMatrix).worldMatrix.getInverse.mulVec3
            sampleCamera.inverseViewMatrix.getT]) ∧
      getUniform actor1.uniforms "eye_look" =
        some (.float3
          [(Transform.mk scaledWorldMatrix).worldMatrix.getInverse.getTransposed.mulVec3
            sampleCamera.inverseViewMatrix.getZ.neg])) ∧
      scaledWorldMatrix.getInverse.getTransposed.mulVec3
          sampleCamera.inverseViewMatrix.getZ.neg ≠
        scaledWorldMatrix.getInverse.mulVec3 sampleCamera.inverseViewMatrix.getZ.neg :=
  updateUniforms_eye_transform scaledActor 0 sampleCamera
    RaycastVolume.RaycastVolume.mGeometry (programDeclaring ["eye_position", "eye_look"])
    sampleLights ⟨scaledWorldMatrix⟩ rfl (by decide) (by decide)

end RaycastVolume

/-- Writing to a uniform the value it already reads as changes nothing. -/
theorem gocSetUniform_of_getUniform (us : List Uniform) (name : String) (d : UniformData)
    (h : getUniform us name = some d) : gocSetUniform us name d = us := by
  induction us with
  | nil => simp [getUniform] at h
  | cons u us ih =>
    by_cases hu : u.name = name
    · have hd : u.data = d := by simpa [getUniform, hu] using h
      cases u
      simp_all [gocSetUniform]
    · have h2 : getUniform us name = some d := by simpa [getUniform, hu] using h
      simp [gocSetUniform, hu, ih h2]

/-- Writing to a uniform of an actor the value it already reads as changes
nothing. -/
theorem Actor.gocSetUniform_fixed (actor : Actor) (name : String) (d : UniformData)
    (h : getUniform actor.uniforms name = some d) : actor.gocSetUniform name d = actor := by
  unfold Actor.gocSetUniform
  rw [vl.gocSetUniform_of_getUniform _ _ _ h]

namespace RaycastVolume

/-- The light loop depends on the actor through its transform only. -/
theorem lightLoop_congr (a b : Actor) (camera : Camera) (shader : Shader) (inv_mat : fmat4)
    (h : a.transform = b.transform) :
    lightLoop a camera shader inv_mat = lightLoop b camera shader inv_mat := by
  have hbody : lightLoopBody a camera shader inv_mat = lightLoopBody b camera shader inv_mat := by
    funext st i
    unfold lightLoopBody
    rw [h]
  unfold lightLoop
  rw [hbody]

/-- The matrix `inv_mat` depends on the actor through its transform only. -/
theorem invMat_congr (a b : Actor) (h : a.transform = b.transform) : invMat a = invMat b := by
  unfold invMat
  rw [h]

/-- The three blocks of `updateUniforms` do not touch the actor transform. -/
theorem blocks_transform (glsl : GLSLProgram) (actor : Actor) (camera : Camera)
    (shader : Shader) :
    (updateEyeLook glsl
      (updateEyePosition glsl (updateLights glsl actor camera shader) camera)
      camera).transform = actor.transform := by
  have h3 : ∀ a : Actor, (updateEyeLook glsl a camera).transform = a.transform := by
    intro a
    unfold updateEyeLook
    split <;> rfl
  rw [h3, updateEyePosition_transform, updateLights_transform]

/-- The light block changes nothing on an actor whose light uniforms already
read as the arrays the block computes. -/
theorem updateLights_fixed (glsl : GLSLProgram) (actor : Actor) (camera : Camera)
    (shader : Shader)
    (hpos : getUniform actor.uniforms "light_position" =
      some (.float3 (lightLoop actor camera shader (invMat actor)).light_position))
    (hen : getUniform actor.uniforms "light_enable" =
      some (.int1 (lightLoop actor camera shader (invMat actor)).light_enable)) :
    updateLights glsl actor camera shader = actor := by
  unfold updateLights
  split
  · simp only []
    rw [Actor.gocSetUniform_fixed _ _ _ hpos,
      Actor.gocSetUniform_fixed _ _ _ hen]
  · rfl

/-- The `eye_position` block changes nothing on an actor whose uniform
already reads as the value the block computes. -/
theorem updateEyePosition_fixed (glsl : GLSLProgram) (actor : Actor) (camera : Camera)
    (h : getUniform actor.uniforms "eye_position" =
      some (.float3 [eyePosition actor camera])) :
    updateEyePosition glsl actor camera = actor := by
  unfold updateEyePosition
  split
  · exact Actor.gocSetUniform_fixed _ _ _ h
  · rfl

/-- The `eye_look` block changes nothing on an actor whose uniform already
reads as the value the block computes. -/
theorem updateEyeLook_fixed (glsl : GLSLProgram) (actor : Actor) (camera : Camera)
    (h : getUniform actor.uniforms "eye_look" = some (.float3 [eyeLook actor camera])) :
    updateEyeLook glsl actor camera = actor := by
  unfold updateEyeLook
  split
  · exact Actor.gocSetUniform_fixed _ _ _ h
  · rfl

/-- A second run of the three blocks of `updateUniforms` changes nothing. -/
theorem blocks_fixed (glsl : GLSLProgram) (actor : Actor) (camera : Camera)
    (shader : Shader) :
    updateEyeLook glsl
        (updateEyePosition glsl
          (updateLights glsl
            (updateEyeLook glsl
              (updateEyePosition glsl (updateLights glsl actor camera shader) camera) camera)
            camera shader)
          camera)
        camera =
      updateEyeLook glsl
        (updateEyePosition glsl (updateLights glsl actor camera shader) camera) camera := by
  have htr := blocks_transform glsl actor camera shader
  have hread := getUniform_blocks glsl actor camera shader
  have hlights := getUniform_updateLights glsl actor camera shader
  generalize updateEyeLook glsl
    (updateEyePosition glsl (updateLights glsl actor camera shader) camera) camera = a1
    at htr hread
  have h1 : updateLights glsl a1 camera shader = a1 := by
    by_cases hg : glsl.getUniformLocation "light_position" ≠ -1 ∧
        glsl.getUniformLocation "light_enable" ≠ -1
    · apply updateLights_fixed
      · rw [lightLoop_congr a1 actor camera shader _ htr, invMat_congr a1 actor htr, hread,
          hlights]
        simp [hg]
      · rw [lightLoop_congr a1 actor camera shader _ htr, invMat_congr a1 actor htr, hread,
          hlights]
        simp [hg]
    · exact updateLights_skip _ _ _ _ hg
  rw [h1]
  have h2 : updateEyePosition glsl a1 camera = a1 := by
    by_cases hg : glsl.getUniformLocation "eye_position" = -1
    · exact updateEyePosition_skip _ _ _ hg
    · apply updateEyePosition_fixed
      rw [eyePosition_congr a1 actor camera htr, hread]
      simp [hg]
  rw [h2]
  by_cases hg : glsl.getUniformLocation "eye_look" = -1
  · exact updateEyeLook_skip _ _ _ hg
  · apply updateEyeLook_fixed
    rw [eyeLook_congr a1 actor camera htr, hread]
    simp [hg]

/-- The three blocks of `updateUniforms` change nothing of the actor but its
uniform store. -/
theorem blocks_frame (glsl : GLSLProgram) (actor : Actor) (camera : Camera)
    (shader : Shader) :
    (updateEyeLook glsl
      (updateEyePosition glsl (updateLights glsl actor camera shader) camera)
      camera).actorEventCallbacks = actor.actorEventCallbacks ∧
    (updateEyeLook glsl
      (updateEyePosition glsl (updateLights glsl actor camera shader) camera)
      camera).lod = actor.lod := by
  unfold updateEyeLook updateEyePosition updateLights
  constructor <;> (split <;> split <;> split <;> rfl)

/-- C15: `updateUniforms` is idempotent on the uniform store: run twice on
the same camera and shader it leaves the actor that one run leaves (and it
fails twice if it fails once).  The values it writes do not depend on the
prior contents of the store: on any actor with the same transform, whatever
its uniforms, callbacks and renderables, every uniform that is written reads
the same afterwards.  Uniforms of other names than `light_position`,
`light_enable`, `eye_position`, `eye_look` are neither created nor modified,
and nothing of the actor but its uniform store changes. -/
theorem updateUniforms_idempotent (actor : Actor) (clock : ℚ) (camera : Camera)
    (rend : Geometry) (shader : Shader) :
    (updateUniforms actor clock camera rend shader).bind
        (fun actor1 => updateUniforms actor1 clock camera rend shader) =
      updateUniforms actor clock camera rend shader ∧
    ∀ glsl : GLSLProgram, shader.getGLSLProgram = some glsl →
      ∃ actor1 : Actor,
        updateUniforms actor clock camera rend shader = some actor1 ∧
        updateUniforms actor1 clock camera rend shader = some actor1 ∧
        actor1.uniforms.filter (fun u => decide (u.name ∉
            ["light_position", "light_enable", "eye_position", "eye_look"])) =
          actor.uniforms.filter (fun u => decide (u.name ∉
            ["light_position", "light_enable", "eye_position", "eye_look"])) ∧
        actor1.transform = actor.transform ∧
        actor1.actorEventCallbacks = actor.actorEventCallbacks ∧
        actor1.lod = actor.lod ∧
        ∀ (us : List Uniform) (cbs : List Ptr) (lods : Nat → Option Geometry),
          ∃ other1 : Actor,
            updateUniforms ⟨actor.transform, us, cbs, lods⟩ clock camera rend shader =
              some other1 ∧
            ((glsl.getUniformLocation "light_position" ≠ -1 ∧
                glsl.getUniformLocation "light_enable" ≠ -1) →
              getUniform other1.uniforms "light_position" =
                  getUniform actor1.uniforms "light_position" ∧
                getUniform other1.uniforms "light_enable" =
                  getUniform actor1.uniforms "light_enable") ∧
            (glsl.getUniformLocation "eye_position" ≠ -1 →
              getUniform other1.uniforms "eye_position" =
                getUniform actor1.uniforms "eye_position") ∧
            (glsl.getUniformLocation "eye_look" ≠ -1 →
              getUniform other1.uniforms "eye_look" =
                getUniform actor1.uniforms "eye_look") := by
  obtain ⟨prog, lights⟩ := shader
  cases prog with
  | none =>
    refine ⟨rfl, ?_⟩
    intro glsl h
    cases h
  | some g =>
    have hidem : updateUniforms
        (updateEyeLook g
          (updateEyePosition g (updateLights g actor camera ⟨some g, lights⟩) camera) camera)
        clock camera rend ⟨some g, lights⟩ =
        some (updateEyeLook g
          (updateEyePosition g (updateLights g actor camera ⟨some g, lights⟩) camera)
          camera) := by
      rw [updateUniforms_some, blocks_fixed]
    refine ⟨?_, ?_⟩
    · rw [updateUniforms_some]
      exact hidem
    · intro glsl h
      have hg : g = glsl := by simpa using h
      subst hg
      refine ⟨_, updateUniforms_some actor clock camera rend g lights, hidem, ?_,
        blocks_transform _ _ _ _, (blocks_frame _ _ _ _).1, (blocks_frame _ _ _ _).2, ?_⟩
      · rw [filter_updateEyeLook
            (fun n => decide (n ∉
              ["light_position", "light_enable", "eye_position", "eye_look"])) _ _ _
            (fun _ => by decide),
          filter_updateEyePosition
            (fun n => decide (n ∉
              ["light_position", "light_enable", "eye_position", "eye_look"])) _ _ _
            (fun _ => by decide),
          filter_updateLights
            (fun n => decide (n ∉
              ["light_position", "light_enable", "eye_position", "eye_look"])) _ _ _ _
            (fun _ => ⟨by decide, by decide⟩)]
      · intro us cbs lods
        have htr : (Actor.mk actor.transform us cbs lods).transform = actor.transform := rfl
        refine ⟨_, updateUniforms_some _ clock camera rend g lights, ?_, ?_, ?_⟩
        · intro hl
          rw [getUniform_blocks, getUniform_blocks, getUniform_updateLights,
            getUniform_updateLights, getUniform_blocks, getUniform_blocks,
            getUniform_updateLights, getUniform_updateLights,
            lightLoop_congr _ actor camera _ _ htr, invMat_congr _ actor htr]
          simp [hl]
        · intro he
          rw [getUniform_blocks, getUniform_blocks, eyePosition_congr _ actor camera htr]
          by_cases hel : g.getUniformLocation "eye_look" = -1 <;> simp [he, hel]
        · intro he
          rw [getUniform_blocks, getUniform_blocks, eyeLook_congr _ actor camera htr]
          simp [he]

/-- Overwriting the same leading elements twice: only the second source
shows, the rest of the destination is kept. -/
theorem memcpy_memcpy {α : Type} (dst src1 src2 : List α) (h : src1.length = src2.length) :
    memcpy (memcpy dst src1) src2 = memcpy dst src2 := by
  unfold memcpy
  rw [← h, List.drop_left]

/-- C16: `setBox` is idempotent: for every box `B` and every prior state,
`setBox B` after `setBox B` leaves the state a single `setBox B` leaves
(vertex positions, box, texture coordinates, indices and dirty flag); more
generally the state after `setBox B` does not depend on a box set earlier,
and on a volume holding its 8 vertices the vertex array after `setBox B` is
the table of the corners of `B`, a function of `B` alone. -/
theorem setBox_idempotent (self : vl.RaycastVolume) (B earlier : AABB) :
    (self.setBox B).setBox B = self.setBox B ∧
      (self.setBox earlier).setBox B = self.setBox B ∧
      ((self.setBox B).setBox B).mVertCoord = (self.setBox B).mVertCoord ∧
      ((self.setBox earlier).setBox B).mVertCoord = (self.setBox B).mVertCoord ∧
      ((RaycastVolume.RaycastVolume.setBox earlier).setBox B).mVertCoord = box_verts B ∧
      (RaycastVolume.RaycastVolume.setBox B).mVertCoord = box_verts B := by
  have key : ∀ b1 : AABB, (self.setBox b1).setBox B = self.setBox B := by
    intro b1
    unfold setBox
    simp only [memcpy_memcpy _ (box_verts b1) (box_verts B) rfl]
  refine ⟨key B, key earlier, by rw [key B], by rw [key earlier], ?_, ?_⟩
  · exact setBox_mVertCoord _ B
      (by rw [setBox_mVertCoord RaycastVolume.RaycastVolume earlier rfl, box_verts_length])
  · exact setBox_mVertCoord RaycastVolume.RaycastVolume B rfl

/-- The texture coordinates of the constructed volume are the table `texc`
of the constructor. -/
theorem constructor_mTexCoord : RaycastVolume.RaycastVolume.mTexCoord = default_texc := rfl

/-- The inset table is the default table with every x and y inset next to
the same cube corner and z inset next to the opposite one. -/
theorem inset_texc_eq_map (size : ivec3) :
    inset_texc size =
      default_texc.map (fun c =>
        ⟨halfTexelInset ((1 / 2) / (size.x : ℚ)) c.x,
         halfTexelInset ((1 / 2) / (size.y : ℚ)) c.y,
         halfTexelInset ((1 / 2) / (size.z : ℚ)) (1 - c.z)⟩) := by
  simp only [inset_texc, default_texc, halfTexelInset, List.map]
  norm_num
  simp only [sub_eq_add_neg, and_self]

/-- C17: for every strictly positive resolution and every corner `i`, the
coordinate `generateTextureCoordinates` writes at corner `i` is the half-texel
inset of the default coordinate of the constructor at corner `i` with its z
flipped (z -> 1 - z): x and y sit next to the same cube corner as the
default, z next to the opposite one.  So corners 0-3 get z = 1 - 0.5/rz and
corners 4-7 get z = 0.5/rz, while the default gives corners 0-3 z = 0 and
corners 4-7 z = 1. -/
theorem inset_vs_default (size : ivec3)
    (hx : 0 < size.x) (hy : 0 < size.y) (hz : 0 < size.z) :
    (RaycastVolume.RaycastVolume.generateTextureCoordinates size).1.mTexCoord =
        RaycastVolume.RaycastVolume.mTexCoord.map (fun c =>
          ⟨halfTexelInset ((1 / 2) / (size.x : ℚ)) c.x,
           halfTexelInset ((1 / 2) / (size.y : ℚ)) c.y,
           halfTexelInset ((1 / 2) / (size.z : ℚ)) (1 - c.z)⟩) ∧
      (∀ d : ℚ, halfTexelInset d 0 = d ∧ halfTexelInset d 1 = 1 - d) ∧
      (RaycastVolume.RaycastVolume.generateTextureCoordinates size).1.mTexCoord.map fvec3.z =
        [ 1 - (1 / 2) / (size.z : ℚ), 1 - (1 / 2) / (size.z : ℚ),
          1 - (1 / 2) / (size.z : ℚ), 1 - (1 / 2) / (size.z : ℚ),
          (1 / 2) / (size.z : ℚ), (1 / 2) / (size.z : ℚ),
          (1 / 2) / (size.z : ℚ), (1 / 2) / (size.z : ℚ) ] ∧
      RaycastVolume.RaycastVolume.mTexCoord.map fvec3.z = [0, 0, 0, 0, 1, 1, 1, 1] := by
  rw [generateTextureCoordinates_mTexCoord RaycastVolume.RaycastVolume size
    (ne_of_gt hx) (ne_of_gt hy) (ne_of_gt hz) rfl, constructor_mTexCoord]
  refine ⟨inset_texc_eq_map size, ?_, by simp [inset_texc], by simp [default_texc]⟩
  intro d
  constructor <;> simp only [halfTexelInset] <;> ring

/-- C17 at the resolution (4, 2, 8). -/
theorem inset_vs_default_witness :
    (RaycastVolume.RaycastVolume.generateTextureCoordinates ⟨4, 2, 8⟩).1.mTexCoord =
        RaycastVolume.RaycastVolume.mTexCoord.map (fun c =>
          ⟨halfTexelInset ((1 / 2) / ((ivec3.x ⟨4, 2, 8⟩ : Int) : ℚ)) c.x,
           halfTexelInset ((1 / 2) / ((ivec3.y ⟨4, 2, 8⟩ : Int) : ℚ)) c.y,
           halfTexelInset ((1 / 2) / ((ivec3.z ⟨4, 2, 8⟩ : Int) : ℚ)) (1 - c.z)⟩) ∧
      (∀ d : ℚ, halfTexelInset d 0 = d ∧ halfTexelInset d 1 = 1 - d) ∧
      (RaycastVolume.RaycastVolume.generateTextureCoordinates ⟨4, 2, 8⟩).1.mTexCoord.map
          fvec3.z =
        [ 1 - (1 / 2) / ((ivec3.z ⟨4, 2, 8⟩ : Int) : ℚ),
          1 - (1 / 2) / ((ivec3.z ⟨4, 2, 8⟩ : Int) : ℚ),
          1 - (1 / 2) / ((ivec3.z ⟨4, 2, 8⟩ : Int) : ℚ),
          1 - (1 / 2) / ((ivec3.z ⟨4, 2, 8⟩ : Int) : ℚ),
          (1 / 2) / ((ivec3.z ⟨4, 2, 8⟩ : Int) : ℚ), (1 / 2) / ((ivec3.z ⟨4, 2, 8⟩ : Int) : ℚ),
          (1 / 2) / ((ivec3.z ⟨4, 2, 8⟩ : Int) : ℚ),
          (1 / 2) / ((ivec3.z ⟨4, 2, 8⟩ : Int) : ℚ) ] ∧
      RaycastVolume.RaycastVolume.mTexCoord.map fvec3.z = [0, 0, 0, 0, 1, 1, 1, 1] :=
  inset_vs_default ⟨4, 2, 8⟩ (by decide) (by decide) (by decide)

/-- Every reachable state has the index table of the constructor, 8 vertices
and 8 texture coordinates. -/
theorem reachable_invariant (s : vl.RaycastVolume) (h : Reachable s) :
    s.indices = de_indices ∧ s.mVertCoord.length = 8 ∧ s.mTexCoord.length = 8 := by
  induction h with
  | constructed => exact ⟨rfl, rfl, rfl⟩
  | setBox s box _ ih =>
    obtain ⟨hi, hv, ht⟩ := ih
    refine ⟨hi, ?_, ht⟩
    rw [setBox_mVertCoord s box hv, box_verts_length]
  | generateTextureCoordinates s size _ ih =>
    obtain ⟨hi, hv, ht⟩ := ih
    have hwf := wellFormed_generateTextureCoordinates s size ⟨hv, ht, by rw [hi]; rfl⟩
    refine ⟨?_, hwf.1, hwf.2.1⟩
    unfold generateTextureCoordinates
    split <;> exact hi

/-- The six quads of the index table. -/
theorem quads_de_indices :
    quads de_indices =
      [[0, 1, 2, 3], [1, 5, 6, 2], [5, 4, 7, 6], [4, 0, 3, 7], [3, 2, 6, 7], [4, 5, 1, 0]] :=
  rfl

/-- Every vertex of the table `box_verts` has each coordinate equal to the
min or the max of the box on that axis. -/
theorem box_verts_coords (B : AABB) (w : fvec3) (hw : w ∈ box_verts B) :
    (w.x = B.minCorner.x ∨ w.x = B.maxCorner.x) ∧
      (w.y = B.minCorner.y ∨ w.y = B.maxCorner.y) ∧
      (w.z = B.minCorner.z ∨ w.z = B.maxCorner.z) := by
  simp only [box_verts, List.mem_cons, List.mem_singleton, List.not_mem_nil, or_false] at hw
  rcases hw with rfl | rfl | rfl | rfl | rfl | rfl | rfl | rfl <;> simp

/-- The normals of the six quads of the index table on the vertices of a
box with edge lengths `a`, `b`, `c`: `ab` along +z, `bc` along +x, `ab` along
-z, `bc` along -x, `ac` along +y, `ac` along -y. -/
theorem quadNormal_box_verts (B : AABB) :
    (quads de_indices).map (quadNormal (box_verts B)) =
      [ ⟨0, 0, (B.maxCorner.x - B.minCorner.x) * (B.maxCorner.y - B.minCorner.y)⟩,
        ⟨(B.maxCorner.y - B.minCorner.y) * (B.maxCorner.z - B.minCorner.z), 0, 0⟩,
        ⟨0, 0, -((B.maxCorner.x - B.minCorner.x) * (B.maxCorner.y - B.minCorner.y))⟩,
        ⟨-((B.maxCorner.y - B.minCorner.y) * (B.maxCorner.z - B.minCorner.z)), 0, 0⟩,
        ⟨0, (B.maxCorner.x - B.minCorner.x) * (B.maxCorner.z - B.minCorner.z), 0⟩,
        ⟨0, -((B.maxCorner.x - B.minCorner.x) * (B.maxCorner.z - B.minCorner.z)), 0⟩ ] := by
  rw [quads_de_indices]
  simp only [List.map, quadNormal, vertexAt, box_verts, fvec3.sub, fvec3.cross,
    List.getD_cons_zero, List.getD_cons_succ]
  simp only [List.cons.injEq, fvec3.mk.injEq, and_true]
  refine ⟨⟨?_, ?_, ?_⟩, ⟨?_, ?_, ?_⟩, ⟨?_, ?_, ?_⟩, ⟨?_, ?_, ?_⟩, ⟨?_, ?_, ?_⟩, ⟨?_, ?_, ?_⟩⟩ <;>
    ring

/-- On a box with min < max on all axes, the normal of each of the six
quads of the index table points out of the box. -/
theorem quadNormal_outward (B : AABB)
    (hx : B.minCorner.x < B.maxCorner.x) (hy : B.minCorner.y < B.maxCorner.y)
    (hz : B.minCorner.z < B.maxCorner.z) (q : List Nat) (hq : q ∈ quads de_indices) :
    PointsOutward (box_verts B) (vertexAt (box_verts B) (q.getD 0 0))
      (quadNormal (box_verts B) q) := by
  have hn := quadNormal_box_verts B
  rw [quads_de_indices] at hn hq
  simp only [List.map, List.cons.injEq, and_true] at hn
  obtain ⟨h0, h1, h2, h3, h4, h5⟩ := hn
  have hxy : 0 < (B.maxCorner.x - B.minCorner.x) * (B.maxCorner.y - B.minCorner.y) :=
    mul_pos (by linarith) (by linarith)
  have hxz : 0 < (B.maxCorner.x - B.minCorner.x) * (B.maxCorner.z - B.minCorner.z) :=
    mul_pos (by linarith) (by linarith)
  have hyz : 0 < (B.maxCorner.y - B.minCorner.y) * (B.maxCorner.z - B.minCorner.z) :=
    mul_pos (by linarith) (by linarith)
  simp only [List.mem_cons, List.mem_singleton, List.not_mem_nil, or_false] at hq
  rcases hq with rfl | rfl | rfl | rfl | rfl | rfl
  · rw [h0]
    refine ⟨?_, ⟨B.minCorner.x, B.minCorner.y, B.minCorner.z⟩, by simp [box_verts], ?_⟩
    · intro w hw
      obtain ⟨_, _, hc⟩ := box_verts_coords B w hw
      rcases hc with e | e
      · simp [fvec3.dot, fvec3.sub, vertexAt, box_verts, e]
        nlinarith
      · simp [fvec3.dot, fvec3.sub, vertexAt, box_verts, e]
    · simp [fvec3.dot, fvec3.sub, vertexAt, box_verts]
      nlinarith
  · rw [h1]
    refine ⟨?_, ⟨B.minCorner.x, B.minCorner.y, B.minCorner.z⟩, by simp [box_verts], ?_⟩
    · intro w hw
      obtain ⟨hc, _, _⟩ := box_verts_coords B w hw
      rcases hc with e | e
      · simp [fvec3.dot, fvec3.sub, vertexAt, box_verts, e]
        nlinarith
      · simp [fvec3.dot, fvec3.sub, vertexAt, box_verts, e]
    · simp [fvec3.dot, fvec3.sub, vertexAt, box_verts]
      nlinarith
  · rw [h2]
    refine ⟨?_, ⟨B.maxCorner.x, B.maxCorner.y, B.maxCorner.z⟩, by simp [box_verts], ?_⟩
    · intro w hw
      obtain ⟨_, _, hc⟩ := box_verts_coords B w hw
      rcases hc with e | e
      · simp [fvec3.dot, fvec3.sub, vertexAt, box_verts, e]
      · simp [fvec3.dot, fvec3.sub, vertexAt, box_verts, e]
        nlinarith
    · simp [fvec3.dot, fvec3.sub, vertexAt, box_verts]
      nlinarith
  · rw [h3]
    refine ⟨?_, ⟨B.maxCorner.x, B.maxCorner.y, B.maxCorner.z⟩, by simp [box_verts], ?_⟩
    · intro w hw
      obtain ⟨hc, _, _⟩ := box_verts_coords B w hw
      rcases hc with e | e
      · simp [fvec3.dot, fvec3.sub, vertexAt, box_verts, e]
      · simp [fvec3.dot, fvec3.sub, vertexAt, box_verts, e]
        nlinarith
    · simp [fvec3.dot, fvec3.sub, vertexAt, box_verts]
      nlinarith
  · rw [h4]
    refine ⟨?_, ⟨B.minCorner.x, B.minCorner.y, B.minCorner.z⟩, by simp [box_verts], ?_⟩
    · intro w hw
      obtain ⟨_, hc, _⟩ := box_verts_coords B w hw
      rcases hc with e | e
      · simp [fvec3.dot, fvec3.sub, vertexAt, box_verts, e]
        nlinarith
      · simp [fvec3.dot, fvec3.sub, vertexAt, box_verts, e]
    · simp [fvec3.dot, fvec3.sub, vertexAt, box_verts]
      nlinarith
  · rw [h5]
    refine ⟨?_, ⟨B.maxCorner.x, B.maxCorner.y, B.maxCorner.z⟩, by simp [box_verts], ?_⟩
    · intro w hw
      obtain ⟨_, hc, _⟩ := box_verts_coords B w hw
      rcases hc with e | e
      · simp [fvec3.dot, fvec3.sub, vertexAt, box_verts, e]
      · simp [fvec3.dot, fvec3.sub, vertexAt, box_verts, e]
        nlinarith
    · simp [fvec3.dot, fvec3.sub, vertexAt, box_verts]
      nlinarith
/-- C18: the index table is a valid closed box.  In every reachable state,
after `setBox` on a box with min < max on all axes, the index list has 24
entries, each below 8, every vertex index occurring exactly 3 times; its six
consecutive groups of 4 are six quads with pairwise different vertex sets,
lying on the faces z = max, x = max, z = min, x = min, y = max, y = min of
the box in this order; and the cross product of the first two consecutive
edges of each quad points out of the box. -/
theorem index_table_closed_box (self : vl.RaycastVolume) (B : AABB)
    (hx : B.minCorner.x < B.maxCorner.x) (hy : B.minCorner.y < B.maxCorner.y)
    (hz : B.minCorner.z < B.maxCorner.z) (hreach : Reachable self) :
    (self.setBox B).indices.length = 24 ∧
      (∀ k ∈ (self.setBox B).indices, k < 8) ∧
      (∀ v, v < 8 → (self.setBox B).indices.count v = 3) ∧
      quads (self.setBox B).indices =
        [[0, 1, 2, 3], [1, 5, 6, 2], [5, 4, 7, 6], [4, 0, 3, 7], [3, 2, 6, 7], [4, 5, 1, 0]] ∧
      (quads (self.setBox B).indices).Pairwise (fun p q => ∃ k ∈ p, k ∉ q) ∧
      (∀ k ∈ [0, 1, 2, 3], (vertexAt (self.setBox B).mVertCoord k).z = B.maxCorner.z) ∧
      (∀ k ∈ [1, 5, 6, 2], (vertexAt (self.setBox B).mVertCoord k).x = B.maxCorner.x) ∧
      (∀ k ∈ [5, 4, 7, 6], (vertexAt (self.setBox B).mVertCoord k).z = B.minCorner.z) ∧
      (∀ k ∈ [4, 0, 3, 7], (vertexAt (self.setBox B).mVertCoord k).x = B.minCorner.x) ∧
      (∀ k ∈ [3, 2, 6, 7], (vertexAt (self.setBox B).mVertCoord k).y = B.maxCorner.y) ∧
      (∀ k ∈ [4, 5, 1, 0], (vertexAt (self.setBox B).mVertCoord k).y = B.minCorner.y) ∧
      ∀ q ∈ quads (self.setBox B).indices,
        PointsOutward (self.setBox B).mVertCoord
          (vertexAt (self.setBox B).mVertCoord (q.getD 0 0))
          (quadNormal (self.setBox B).mVertCoord q) := by
  obtain ⟨hidx, hlen, _⟩ := reachable_invariant self hreach
  have hidx2 : (self.setBox B).indices = de_indices := hidx
  rw [setBox_mVertCoord self B hlen, hidx2]
  refine ⟨rfl, by decide, by decide, rfl, by decide, ?_, ?_, ?_, ?_, ?_, ?_, ?_⟩
  · intro k hk
    simp only [List.mem_cons, List.mem_singleton, List.not_mem_nil, or_false] at hk
    rcases hk with rfl | rfl | rfl | rfl <;> rfl
  · intro k hk
    simp only [List.mem_cons, List.mem_singleton, List.not_mem_nil, or_false] at hk
    rcases hk with rfl | rfl | rfl | rfl <;> rfl
  · intro k hk
    simp only [List.mem_cons, List.mem_singleton, List.not_mem_nil, or_false] at hk
    rcases hk with rfl | rfl | rfl | rfl <;> rfl
  · intro k hk
    simp only [List.mem_cons, List.mem_singleton, List.not_mem_nil, or_false] at hk
    rcases hk with rfl | rfl | rfl | rfl <;> rfl
  · intro k hk
    simp only [List.mem_cons, List.mem_singleton, List.not_mem_nil, or_false] at hk
    rcases hk with rfl | rfl | rfl | rfl <;> rfl
  · intro k hk
    simp only [List.mem_cons, List.mem_singleton, List.not_mem_nil, or_false] at hk
    rcases hk with rfl | rfl | rfl | rfl <;> rfl
  · exact fun q hq => quadNormal_outward B hx hy hz q hq

/-- C18 at the freshly constructed volume and the box [0,0,0]-[1,2,3]. -/
theorem index_table_closed_box_witness :
    (RaycastVolume.setBox RaycastVolume.RaycastVolume ⟨⟨0, 0, 0⟩, ⟨1, 2, 3⟩⟩).indices.length = 24 ∧
      (∀ k ∈ (RaycastVolume.setBox RaycastVolume.RaycastVolume ⟨⟨0, 0, 0⟩, ⟨1, 2, 3⟩⟩).indices, k < 8) ∧
      (∀ v, v < 8 → (RaycastVolume.setBox RaycastVolume.RaycastVolume ⟨⟨0, 0, 0⟩, ⟨1, 2, 3⟩⟩).indices.count v = 3) ∧
      quads (RaycastVolume.setBox RaycastVolume.RaycastVolume ⟨⟨0, 0, 0⟩, ⟨1, 2, 3⟩⟩).indices =
        [[0, 1, 2, 3], [1, 5, 6, 2], [5, 4, 7, 6], [4, 0, 3, 7], [3, 2, 6, 7], [4, 5, 1, 0]] ∧
      (quads (RaycastVolume.setBox RaycastVolume.RaycastVolume ⟨⟨0, 0, 0⟩, ⟨1, 2, 3⟩⟩).indices).Pairwise (fun p q => ∃ k ∈ p, k ∉ q) ∧
      (∀ k ∈ [0, 1, 2, 3],
        (vertexAt (RaycastVolume.setBox RaycastVolume.RaycastVolume ⟨⟨0, 0, 0⟩, ⟨1, 2, 3⟩⟩).mVertCoord k).z = (AABB.maxCorner ⟨⟨0, 0, 0⟩, ⟨1, 2, 3⟩⟩).z) ∧
      (∀ k ∈ [1, 5, 6, 2],
        (vertexAt (RaycastVolume.setBox RaycastVolume.RaycastVolume ⟨⟨0, 0, 0⟩, ⟨1, 2, 3⟩⟩).mVertCoord k).x = (AABB.maxCorner ⟨⟨0, 0, 0⟩, ⟨1, 2, 3⟩⟩).x) ∧
      (∀ k ∈ [5, 4, 7, 6],
        (vertexAt (RaycastVolume.setBox RaycastVolume.RaycastVolume ⟨⟨0, 0, 0⟩, ⟨1, 2, 3⟩⟩).mVertCoord k).z = (AABB.minCorner ⟨⟨0, 0, 0⟩, ⟨1, 2, 3⟩⟩).z) ∧
      (∀ k ∈ [4, 0, 3, 7],
        (vertexAt (RaycastVolume.setBox RaycastVolume.RaycastVolume ⟨⟨0, 0, 0⟩, ⟨1, 2, 3⟩⟩).mVertCoord k).x = (AABB.minCorner ⟨⟨0, 0, 0⟩, ⟨1, 2, 3⟩⟩).x) ∧
      (∀ k ∈ [3, 2, 6, 7],
        (vertexAt (RaycastVolume.setBox RaycastVolume.RaycastVolume ⟨⟨0, 0, 0⟩, ⟨1, 2, 3⟩⟩).mVertCoord k).y = (AABB.maxCorner ⟨⟨0, 0, 0⟩, ⟨1, 2, 3⟩⟩).y) ∧
      (∀ k ∈ [4, 5, 1, 0],
        (vertexAt (RaycastVolume.setBox RaycastVolume.RaycastVolume ⟨⟨0, 0, 0⟩, ⟨1, 2, 3⟩⟩).mVertCoord k).y = (AABB.minCorner ⟨⟨0, 0, 0⟩, ⟨1, 2, 3⟩⟩).y) ∧
      ∀ q ∈ quads (RaycastVolume.setBox RaycastVolume.RaycastVolume ⟨⟨0, 0, 0⟩, ⟨1, 2, 3⟩⟩).indices,
        PointsOutward (RaycastVolume.setBox RaycastVolume.RaycastVolume ⟨⟨0, 0, 0⟩, ⟨1, 2, 3⟩⟩).mVertCoord
          (vertexAt (RaycastVolume.setBox RaycastVolume.RaycastVolume ⟨⟨0, 0, 0⟩, ⟨1, 2, 3⟩⟩).mVertCoord (q.getD 0 0))
          (quadNormal (RaycastVolume.setBox RaycastVolume.RaycastVolume ⟨⟨0, 0, 0⟩, ⟨1, 2, 3⟩⟩).mVertCoord q) :=
  index_table_closed_box RaycastVolume.RaycastVolume ⟨⟨0, 0, 0⟩, ⟨1, 2, 3⟩⟩
    (by norm_num) (by norm_num) (by norm_num) Reachable.constructed

/-- C19: the two mesh mutators touch disjoint fields.  For every state and
box, `setBox` leaves the texture coordinates and the indices as they were
(it changes the stored box, the vertex positions and the bounds-dirty flag
only); for every state and resolution, `generateTextureCoordinates` leaves
the stored box, the vertex positions, the indices and the bounds-dirty flag
as they were (it changes the texture coordinates only); and in every
reachable state the index list is the constant table of the constructor. -/
theorem mesh_mutators_frame (self : vl.RaycastVolume) (box : AABB) (size : ivec3) :
    (self.setBox box).mTexCoord = self.mTexCoord ∧
      (self.setBox box).indices = self.indices ∧
      (self.generateTextureCoordinates size).1.mBox = self.mBox ∧
      (self.generateTextureCoordinates size).1.mVertCoord = self.mVertCoord ∧
      (self.generateTextureCoordinates size).1.indices = self.indices ∧
      (self.generateTextureCoordinates size).1.mGeometry.boundsDirty =
        self.mGeometry.boundsDirty ∧
      ∀ s : vl.RaycastVolume, Reachable s →
        s.indices = [0,1,2,3, 1,5,6,2, 5,4,7,6, 4,0,3,7, 3,2,6,7, 4,5,1,0] := by
  refine ⟨rfl, rfl, ?_, ?_, ?_, ?_, fun s hs => (reachable_invariant s hs).1⟩ <;>
    (unfold generateTextureCoordinates; split <;> rfl)

/-- C20: `generateTextureCoordinates` rejects zero components only.  The
resolution (-1,1,1) has a negative component and no zero component; on every
state the call logs nothing and overwrites the leading 8 texture
coordinates, and on the constructed volume the result differs from the
texture coordinates before the call and has components outside [0,1]: with
0.5/(-1) = -0.5 the x components are -0.5 and 1.5. -/
theorem generateTextureCoordinates_negative (self : vl.RaycastVolume) :
    (self.generateTextureCoordinates ⟨-1, 1, 1⟩).2 = [] ∧
      (self.generateTextureCoordinates ⟨-1, 1, 1⟩).1.mTexCoord.take 8 =
        [ ⟨-1/2, 1/2, 1/2⟩, ⟨3/2, 1/2, 1/2⟩, ⟨3/2, 1/2, 1/2⟩, ⟨-1/2, 1/2, 1/2⟩,
          ⟨-1/2, 1/2, 1/2⟩, ⟨3/2, 1/2, 1/2⟩, ⟨3/2, 1/2, 1/2⟩, ⟨-1/2, 1/2, 1/2⟩ ] ∧
      (RaycastVolume.RaycastVolume.generateTextureCoordinates ⟨-1, 1, 1⟩).1.mTexCoord =
        [ ⟨-1/2, 1/2, 1/2⟩, ⟨3/2, 1/2, 1/2⟩, ⟨3/2, 1/2, 1/2⟩, ⟨-1/2, 1/2, 1/2⟩,
          ⟨-1/2, 1/2, 1/2⟩, ⟨3/2, 1/2, 1/2⟩, ⟨3/2, 1/2, 1/2⟩, ⟨-1/2, 1/2, 1/2⟩ ] ∧
      (RaycastVolume.RaycastVolume.generateTextureCoordinates ⟨-1, 1, 1⟩).1.mTexCoord ≠
        RaycastVolume.RaycastVolume.mTexCoord ∧
      (∃ c ∈ (RaycastVolume.RaycastVolume.generateTextureCoordinates ⟨-1, 1, 1⟩).1.mTexCoord,
        c.x < 0) ∧
      (∃ c ∈ (RaycastVolume.RaycastVolume.generateTextureCoordinates ⟨-1, 1, 1⟩).1.mTexCoord,
        1 < c.x) ∧
      (ivec3.x ⟨-1, 1, 1⟩ < 0 ∧ ivec3.x ⟨-1, 1, 1⟩ ≠ 0 ∧ ivec3.y ⟨-1, 1, 1⟩ ≠ 0 ∧
        ivec3.z ⟨-1, 1, 1⟩ ≠ 0) := by
  have htab : inset_texc ⟨-1, 1, 1⟩ =
      [ ⟨-1/2, 1/2, 1/2⟩, ⟨3/2, 1/2, 1/2⟩, ⟨3/2, 1/2, 1/2⟩, ⟨-1/2, 1/2, 1/2⟩,
        ⟨-1/2, 1/2, 1/2⟩, ⟨3/2, 1/2, 1/2⟩, ⟨3/2, 1/2, 1/2⟩, ⟨-1/2, 1/2, 1/2⟩ ] := by
    simp only [inset_texc]
    norm_num
  have hcons : (RaycastVolume.RaycastVolume.generateTextureCoordinates ⟨-1, 1, 1⟩).1.mTexCoord =
      inset_texc ⟨-1, 1, 1⟩ :=
    generateTextureCoordinates_mTexCoord RaycastVolume.RaycastVolume ⟨-1, 1, 1⟩
      (by decide) (by decide) (by decide) rfl
  rw [generateTextureCoordinates_pos self ⟨-1, 1, 1⟩ (by decide) (by decide) (by decide),
    hcons, htab]
  refine ⟨rfl, ?_, rfl, ?_, ?_, ?_, by decide⟩
  · simp [mTexCoord, memcpy]
  · rw [constructor_mTexCoord]
    simp [default_texc]
  · exact ⟨⟨-1/2, 1/2, 1/2⟩, by simp, by norm_num⟩
  · exact ⟨⟨3/2, 1/2, 1/2⟩, by simp, by norm_num⟩

/-- C15 at the sample actor, the sample camera and a shader declaring all
four uniforms: one run succeeds, a second run returns the same actor, and
the foreign uniform of the sample actor is kept. -/
theorem updateUniforms_idempotent_witness :
    ∃ actor1 : Actor,
      updateUniforms sampleActor 0 sampleCamera RaycastVolume.RaycastVolume.mGeometry
        (sampleShader ["light_position", "light_enable", "eye_position", "eye_look"]) =
          some actor1 ∧
      updateUniforms actor1 0 sampleCamera RaycastVolume.RaycastVolume.mGeometry
        (sampleShader ["light_position", "light_enable", "eye_position", "eye_look"]) =
          some actor1 ∧
      actor1.uniforms.filter (fun u => decide (u.name ∉
          ["light_position", "light_enable", "eye_position", "eye_look"])) =
        sampleActor.uniforms.filter (fun u => decide (u.name ∉
          ["light_position", "light_enable", "eye_position", "eye_look"])) := by
  obtain ⟨a1, h1, h2, h3, _⟩ :=
    (updateUniforms_idempotent sampleActor 0 sampleCamera RaycastVolume.RaycastVolume.mGeometry
      (sampleShader ["light_position", "light_enable", "eye_position", "eye_look"])).2 _ rfl
  exact ⟨a1, h1, h2, h3⟩

/-- C19 at the state reached from the constructor by `setBox` on the box
[0,0,0]-[1,2,3] and `generateTextureCoordinates` at (4,4,4): the index list
is the table of the constructor. -/
theorem mesh_mutators_frame_witness :
    ((RaycastVolume.setBox RaycastVolume.RaycastVolume
        ⟨⟨0, 0, 0⟩, ⟨1, 2, 3⟩⟩).generateTextureCoordinates ⟨4, 4, 4⟩).1.indices =
      [0,1,2,3, 1,5,6,2, 5,4,7,6, 4,0,3,7, 3,2,6,7, 4,5,1,0] :=
  (mesh_mutators_frame RaycastVolume.RaycastVolume ⟨⟨0, 0, 0⟩, ⟨1, 2, 3⟩⟩ ⟨4, 4, 4⟩).2.2.2.2.2.2 _
    (Reachable.generateTextureCoordinates _ _
      (Reachable.setBox _ _ Reachable.constructed))

end RaycastVolume

end vl
